import Mathlib

/-!
Verification development for the constraint-generation backend
(`src/aleo_program/constraints.rs`).

The development shallowly embeds the backend: every Rust function of the
core is translated to an executable Lean definition of the same name,
threading the binding environment (`resolved_variables` of
`ResolvedProgram`) and the gate-allocation sink (`CS`) explicitly, and
returning `Except GenError` for the fatal conditions (Rust panics and
collaborator failures).  The expression/statement tree types live in the
crate's types module, which is not part of the provided sources; they are
modelled from the spec and from how `constraints.rs` consumes them.  The
gate-allocation and witness-provider collaborators (snarkOS gadgets,
process arguments) are external to the repository and are modelled from
the spec's interface contract (spec section 6 and the glossary).
-/

namespace Leo

/-- Modelled from the spec: a gate-backed boolean produced by the boolean
gadget collaborator.  `Constant` mirrors `Boolean::Constant`; `Allocated`
mirrors a boolean carried by an allocated circuit variable, tagged with
the index of the gate that produced it.  Equality is structural, matching
the derived `PartialEq` that `IfElse` uses to compare a resolved condition
against `Boolean::Constant(true)`. -/
inductive GBool where
  | Constant : Bool → GBool
  | Allocated : Nat → Bool → GBool
deriving DecidableEq, Repr

/-- Witness value observed on a gate-backed boolean (`get_value().unwrap()`). -/
def GBool.val : GBool → Bool
  | .Constant b => b
  | .Allocated _ b => b

/-- Modelled from the spec: a gate-backed fixed-width (32-bit) integer
produced by the `UInt32` gadget collaborator.  `Constant` mirrors
`UInt32::constant`; `Allocated` mirrors an allocated value tagged with the
index of the gate that produced it.  The carried `Nat` is the witness
value (`value.unwrap()`), kept below `2 ^ 32` by every operation. -/
inductive GU32 where
  | Constant : Nat → GU32
  | Allocated : Nat → Nat → GU32
deriving DecidableEq, Repr

/-- Witness value observed on a gate-backed integer (`value.unwrap()`). -/
def GU32.val : GU32 → Nat
  | .Constant n => n
  | .Allocated _ n => n

/-- Modelled from the spec: the gate-allocation sink.  The core only ever
asks it for fresh gates; the model records how many gates have been
allocated, and fresh gate-backed values are tagged with the count at
allocation time. -/
structure CS where
  gates : Nat
deriving DecidableEq, Repr

/-- One sink call: allocate a gate. -/
def allocGate (cs : CS) : CS := ⟨cs.gates + 1⟩

/-- Modelled from the spec: the stand-in witness provider.  The reference
behavior reads the first process argument (`std::env::args().nth(1)`);
the model carries that optional argument string. -/
structure Context where
  arg : Option String
deriving Repr

/-- Modelled from the spec: Rust's `str::parse::<bool>` accepts exactly
the strings `true` and `false`. -/
def parseBool (s : String) : Option Bool :=
  if s = "true" then some true else if s = "false" then some false else none

/-- Modelled from the spec: Rust's `str::parse::<u32>` accepts an
optional leading plus sign (character code 43) followed by at least one
decimal digit, within the 32-bit range. -/
def parseU32 (s : String) : Option Nat :=
  let cs0 := s.data
  let cs := match cs0 with
    | c :: rest => if c = Char.ofNat 43 then rest else cs0
    | [] => cs0
  if cs ≠ [] ∧ cs.all (fun c => c.isDigit) then
    let n := cs.foldl (fun acc c => acc * 10 + (c.toNat - 48)) 0
    if n < 4294967296 then some n else none
  else none

/-- Fatal conditions of the compilation pass (spec section 7).  Rust
panics (`unimplemented!`, `unwrap`, slice/index panics) and collaborator
rejections are mapped to the spec's error taxonomy:
`TypeMismatch` for the "expected a boolean, got field" family of panics,
`UndefinedStruct` for both struct-lookup failures of
`enforce_struct_expression` (the spec, section 4.5, requires the name to
already be bound to a `StructDef` and names the failure `UndefinedStruct`
otherwise), `FieldMismatch` for "struct field variables do not match",
`Unsupported` for spreads, struct-valued returns and the unfinished
`Display` arms, `IndexOutOfRange` for slice/index panics,
`MissingWitness` for an absent or unparsable process argument, and
`GateAllocationFailure` for collaborator rejections (failed equality
enforcement, division by zero). -/
inductive GenError where
  | TypeMismatch
  | UndefinedStruct
  | UndefinedName
  | FieldMismatch
  | Unsupported
  | IndexOutOfRange
  | MissingWitness
  | GateAllocationFailure
deriving DecidableEq, Repr

/-- Names are string-keyed (`Variable(String)` in the crate). -/
abbrev Variable := String

mutual
/-- Modelled from the spec: boolean-typed expression nodes, with exactly
the forms `enforce_boolean_expression` consumes. -/
inductive BooleanExpression where
  | Variable : Variable → BooleanExpression
  | Value : Bool → BooleanExpression
  | Not : BooleanExpression → BooleanExpression
  | Or : BooleanExpression → BooleanExpression → BooleanExpression
  | And : BooleanExpression → BooleanExpression → BooleanExpression
  | BoolEq : BooleanExpression → BooleanExpression → BooleanExpression
  | FieldEq : FieldExpression → FieldExpression → BooleanExpression
  | IfElse : BooleanExpression → BooleanExpression → BooleanExpression → BooleanExpression
  | Array : List BooleanSpreadOrExpression → BooleanExpression

/-- Modelled from the spec: an array element is a plain boolean
expression or a spread marker (whose payload the core never reads). -/
inductive BooleanSpreadOrExpression where
  | Spread : BooleanSpreadOrExpression
  | BooleanExpression : BooleanExpression → BooleanSpreadOrExpression

/-- Modelled from the spec: fixed-width-integer expression nodes, with
exactly the forms `enforce_field_expression` consumes. -/
inductive FieldExpression where
  | Variable : Variable → FieldExpression
  | Number : Nat → FieldExpression
  | Add : FieldExpression → FieldExpression → FieldExpression
  | Sub : FieldExpression → FieldExpression → FieldExpression
  | Mul : FieldExpression → FieldExpression → FieldExpression
  | Div : FieldExpression → FieldExpression → FieldExpression
  | Pow : FieldExpression → FieldExpression → FieldExpression
  | IfElse : BooleanExpression → FieldExpression → FieldExpression → FieldExpression
  | Array : List FieldSpreadOrExpression → FieldExpression

/-- Modelled from the spec: integer array element or spread marker. -/
inductive FieldSpreadOrExpression where
  | Spread : FieldSpreadOrExpression
  | FieldExpression : FieldExpression → FieldSpreadOrExpression
end

/-- Modelled from the spec: an array index specifier — a `(from?, to?)`
range or a single index expression. -/
inductive FieldRangeOrExpression where
  | Range : Option FieldExpression → Option FieldExpression → FieldRangeOrExpression
  | FieldExpression : FieldExpression → FieldRangeOrExpression

mutual
/-- Modelled from the spec: the top-level expression type consumed by
`enforce_expression`. -/
inductive Expression where
  | Boolean : BooleanExpression → Expression
  | FieldElement : FieldExpression → Expression
  | Variable : Variable → Expression
  | Struct : Variable → List StructMember → Expression
  | ArrayAccess : Expression → FieldRangeOrExpression → Expression

/-- Modelled from the spec: a struct-literal member, a (field-name,
initializer expression) pair. -/
inductive StructMember where
  | mk : Variable → Expression → StructMember
end

/-- Field name of a struct-literal member (`member.variable` in the
source; `variable` is a Lean keyword). -/
def StructMember.varName : StructMember → Variable
  | .mk v _ => v

/-- Initializer expression of a struct-literal member (`member.expression`). -/
def StructMember.expression : StructMember → Expression
  | .mk _ e => e

/-- Modelled from the spec: the declared type of a struct field; the core
never inspects it. -/
inductive Ty where
  | Boolean : Ty
  | FieldElement : Ty
deriving DecidableEq, Repr

/-- Modelled from the spec: a declared struct field (name and type). -/
structure StructField where
  varName : Variable
  ty : Ty

/-- Modelled from the spec: a struct declaration — an ordered sequence of
field declarations. -/
structure Struct where
  fields : List StructField

/-- Modelled from the spec: statements, exactly the two forms the
Statement Driver executes. -/
inductive Statement where
  | Definition : Variable → Expression → Statement
  | Return : List Expression → Statement

/-- Modelled from the spec: a function declaration, stored but never
invoked by the current driver. -/
structure Function where
  statements : List Statement

/-- Modelled from the spec: the resolved program tree — ordered mappings
of struct and function declarations plus the top-level statement
sequence. -/
structure Program where
  structs : List (Variable × Struct)
  functions : List (Variable × Function)
  statements : List Statement

/-- The `ResolvedValue` enum of `constraints.rs`: everything a name can
resolve to. -/
inductive ResolvedValue where
  | Boolean : GBool → ResolvedValue
  | BooleanArray : List GBool → ResolvedValue
  | FieldElement : GU32 → ResolvedValue
  | FieldElementArray : List GU32 → ResolvedValue
  | StructDefinition : Struct → ResolvedValue
  | StructExpression : Variable → List StructMember → ResolvedValue
  | Function : Function → ResolvedValue

/-- The `resolved_variables` map of `ResolvedProgram`, modelled as an
association list whose lookup takes the first match; `envInsert`
overwrites, mirroring `HashMap::insert`. -/
abbrev Env := List (Variable × ResolvedValue)

/-- Lookup (`resolved_variables.get` / `contains_key`). -/
def envLookup (env : Env) (x : Variable) : Option ResolvedValue :=
  match env.find? (fun p => p.1 = x) with
  | some p => some p.2
  | none => none

/-- Insert-or-overwrite (`ResolvedProgram::insert`), unconditional. -/
def envInsert (env : Env) (x : Variable) (v : ResolvedValue) : Env :=
  (x, v) :: env.filter (fun p => p.1 ≠ x)

/-- Rendering of a witness boolean, as Rust's `Display for bool`. -/
def renderBool (b : Bool) : String :=
  if b then "true" else "false"

/-- The element/separator loop shared by the `Display` arms of
`constraints.rs`: each element is written, followed by a comma-space
separator whenever it is not the last element. -/
def renderElems : List String → String
  | [] => ""
  | [x] => x
  | x :: y :: rest => x ++ ", " ++ renderElems (y :: rest)

/-- Modelled from the spec: `Display` for expression trees lives in the
crate's types module, which is absent from the provided sources.  Literal
booleans and numbers render as their value and variables as their name,
per the spec's diagnostic examples; any other form renders as an opaque
placeholder (no claim depends on those forms). -/
def renderExpression : Expression → String
  | .Boolean (.Value b) => renderBool b
  | .FieldElement (.Number n) => toString n
  | .Variable v => v
  | _ => "<expression>"

/-- The `bool_from_variable` method: a bound name must hold a `Boolean`
value, returned unchanged; an unbound name falls back to the witness
provider (the first process argument, defaulting to the string `true`),
parses it as a boolean (`MissingWitness` on parse failure, mirroring the
`unwrap` panic) and allocates a fresh input gate for it.  The environment
is not modified. -/
def bool_from_variable (ctx : Context) (v : Variable) (env : Env) (cs : CS) :
    Except GenError (GBool × Env × CS) :=
  match envLookup env v with
  | some (.Boolean b) => .ok (b, env, cs)
  | some _ => .error .TypeMismatch
  | none =>
    match parseBool (ctx.arg.getD "true") with
    | some b => .ok (.Allocated cs.gates b, env, allocGate cs)
    | none => .error .MissingWitness

/-- The `u32_from_variable` method: the integer counterpart of
`bool_from_variable`, with default argument string `1`. -/
def u32_from_variable (ctx : Context) (v : Variable) (env : Env) (cs : CS) :
    Except GenError (GU32 × Env × CS) :=
  match envLookup env v with
  | some (.FieldElement n) => .ok (n, env, cs)
  | some _ => .error .TypeMismatch
  | none =>
    match parseU32 (ctx.arg.getD "1") with
    | some n => .ok (.Allocated cs.gates n, env, allocGate cs)
    | none => .error .MissingWitness

mutual
/-- The `get_bool_value` method: variables and literals are taken
directly; any other boolean expression is resolved through
`enforce_boolean_expression` and must come back as a `Boolean` value
(`TypeMismatch` mirrors the "did not resolve to boolean" panic). -/
def get_bool_value (ctx : Context) (expression : BooleanExpression) (env : Env) (cs : CS) :
    Except GenError (GBool × Env × CS) :=
  match expression with
  | .Variable v => bool_from_variable ctx v env cs
  | .Value b => .ok (.Constant b, env, cs)
  | other =>
    match enforce_boolean_expression ctx other env cs with
    | .error e => .error e
    | .ok (.Boolean b, env1, cs1) => .ok (b, env1, cs1)
    | .ok _ => .error .TypeMismatch
termination_by (sizeOf expression, 4)
decreasing_by all_goals (simp_wf; simp [Prod.lex_def]; try omega)

/-- The `get_u32_value` method: integer counterpart of `get_bool_value`. -/
def get_u32_value (ctx : Context) (expression : FieldExpression) (env : Env) (cs : CS) :
    Except GenError (GU32 × Env × CS) :=
  match expression with
  | .Variable v => u32_from_variable ctx v env cs
  | .Number n => .ok (.Constant (n % 4294967296), env, cs)
  | other =>
    match enforce_field_expression ctx other env cs with
    | .error e => .error e
    | .ok (.FieldElement n, env1, cs1) => .ok (n, env1, cs1)
    | .ok _ => .error .TypeMismatch
termination_by (sizeOf expression, 4)
decreasing_by all_goals (simp_wf; simp [Prod.lex_def]; try omega)

/-- The `enforce_not` method: resolve the operand, negate it.  Negation is
gate-free (`Boolean::not` rewires the existing gate). -/
def enforce_not (ctx : Context) (expression : BooleanExpression) (env : Env) (cs : CS) :
    Except GenError (GBool × Env × CS) :=
  match get_bool_value ctx expression env cs with
  | .error e => .error e
  | .ok (b, env1, cs1) =>
    .ok (match b with
         | .Constant c => .Constant (!c)
         | .Allocated id c => .Allocated id (!c), env1, cs1)
termination_by (sizeOf expression, 5)
decreasing_by all_goals (simp_wf; simp [Prod.lex_def]; try omega)

/-- The `enforce_or` method: resolve both operands fully, then allocate
an or gate (gate semantics modelled from the spec: the gate-backed result
carries the disjunction of the witness values). -/
def enforce_or (ctx : Context) (left right : BooleanExpression) (env : Env) (cs : CS) :
    Except GenError (GBool × Env × CS) :=
  match get_bool_value ctx left env cs with
  | .error e => .error e
  | .ok (l, env1, cs1) =>
    match get_bool_value ctx right env1 cs1 with
    | .error e => .error e
    | .ok (r, env2, cs2) =>
      .ok (.Allocated cs2.gates (l.val || r.val), env2, allocGate cs2)
termination_by (sizeOf left + sizeOf right, 5)
decreasing_by all_goals (simp_wf; simp [Prod.lex_def]; try omega)

/-- The `enforce_and` method: as `enforce_or`, with an and gate. -/
def enforce_and (ctx : Context) (left right : BooleanExpression) (env : Env) (cs : CS) :
    Except GenError (GBool × Env × CS) :=
  match get_bool_value ctx left env cs with
  | .error e => .error e
  | .ok (l, env1, cs1) =>
    match get_bool_value ctx right env1 cs1 with
    | .error e => .error e
    | .ok (r, env2, cs2) =>
      .ok (.Allocated cs2.gates (l.val && r.val), env2, allocGate cs2)
termination_by (sizeOf left + sizeOf right, 5)
decreasing_by all_goals (simp_wf; simp [Prod.lex_def]; try omega)

/-- The `enforce_bool_equality` method: resolve both operands, allocate
an equality-enforcement gate and return the constant `true` boolean.
Enforcement semantics modelled from the spec (glossary): the gate fails
generation with `GateAllocationFailure` when the two witness values are
not equal (the `unwrap` on `enforce_equal`). -/
def enforce_bool_equality (ctx : Context) (left right : BooleanExpression) (env : Env) (cs : CS) :
    Except GenError (GBool × Env × CS) :=
  match get_bool_value ctx left env cs with
  | .error e => .error e
  | .ok (l, env1, cs1) =>
    match get_bool_value ctx right env1 cs1 with
    | .error e => .error e
    | .ok (r, env2, cs2) =>
      if l.val = r.val then .ok (.Constant true, env2, allocGate cs2)
      else .error .GateAllocationFailure
termination_by (sizeOf left + sizeOf right, 5)
decreasing_by all_goals (simp_wf; simp [Prod.lex_def]; try omega)

/-- The `enforce_field_equality` method: resolve both integer operands,
allocate a conditional equality-enforcement gate whose condition is fixed
to constant `true`, and return the constant `true` boolean.  With the
condition constantly true the gate enforces unconditionally, so it fails
with `GateAllocationFailure` exactly when the witness values differ. -/
def enforce_field_equality (ctx : Context) (left right : FieldExpression) (env : Env) (cs : CS) :
    Except GenError (GBool × Env × CS) :=
  match get_u32_value ctx left env cs with
  | .error e => .error e
  | .ok (l, env1, cs1) =>
    match get_u32_value ctx right env1 cs1 with
    | .error e => .error e
    | .ok (r, env2, cs2) =>
      if l.val = r.val then .ok (.Constant true, env2, allocGate cs2)
      else .error .GateAllocationFailure
termination_by (sizeOf left + sizeOf right, 5)
decreasing_by all_goals (simp_wf; simp [Prod.lex_def]; try omega)

/-- The `enforce_add` method: resolve both operands, allocate an addition
gate (`UInt32::addmany`), wrapping modulo `2 ^ 32`. -/
def enforce_add (ctx : Context) (left right : FieldExpression) (env : Env) (cs : CS) :
    Except GenError (GU32 × Env × CS) :=
  match get_u32_value ctx left env cs with
  | .error e => .error e
  | .ok (l, env1, cs1) =>
    match get_u32_value ctx right env1 cs1 with
    | .error e => .error e
    | .ok (r, env2, cs2) =>
      .ok (.Allocated cs2.gates ((l.val + r.val) % 4294967296), env2, allocGate cs2)
termination_by (sizeOf left + sizeOf right, 5)
decreasing_by all_goals (simp_wf; simp [Prod.lex_def]; try omega)

/-- The `enforce_sub` method: subtraction gate, wrapping modulo `2 ^ 32`. -/
def enforce_sub (ctx : Context) (left right : FieldExpression) (env : Env) (cs : CS) :
    Except GenError (GU32 × Env × CS) :=
  match get_u32_value ctx left env cs with
  | .error e => .error e
  | .ok (l, env1, cs1) =>
    match get_u32_value ctx right env1 cs1 with
    | .error e => .error e
    | .ok (r, env2, cs2) =>
      .ok (.Allocated cs2.gates ((l.val + (4294967296 - r.val)) % 4294967296), env2, allocGate cs2)
termination_by (sizeOf left + sizeOf right, 5)
decreasing_by all_goals (simp_wf; simp [Prod.lex_def]; try omega)

/-- The `enforce_mul` method: multiplication gate, wrapping modulo `2 ^ 32`. -/
def enforce_mul (ctx : Context) (left right : FieldExpression) (env : Env) (cs : CS) :
    Except GenError (GU32 × Env × CS) :=
  match get_u32_value ctx left env cs with
  | .error e => .error e
  | .ok (l, env1, cs1) =>
    match get_u32_value ctx right env1 cs1 with
    | .error e => .error e
    | .ok (r, env2, cs2) =>
      .ok (.Allocated cs2.gates ((l.val * r.val) % 4294967296), env2, allocGate cs2)
termination_by (sizeOf left + sizeOf right, 5)
decreasing_by all_goals (simp_wf; simp [Prod.lex_def]; try omega)

/-- The `enforce_div` method: division gate; division by zero is a
collaborator-level failure (`GateAllocationFailure`), per the spec. -/
def enforce_div (ctx : Context) (left right : FieldExpression) (env : Env) (cs : CS) :
    Except GenError (GU32 × Env × CS) :=
  match get_u32_value ctx left env cs with
  | .error e => .error e
  | .ok (l, env1, cs1) =>
    match get_u32_value ctx right env1 cs1 with
    | .error e => .error e
    | .ok (r, env2, cs2) =>
      if r.val = 0 then .error .GateAllocationFailure
      else .ok (.Allocated cs2.gates (l.val / r.val), env2, allocGate cs2)
termination_by (sizeOf left + sizeOf right, 5)
decreasing_by all_goals (simp_wf; simp [Prod.lex_def]; try omega)

/-- The `enforce_pow` method: exponentiation gate, wrapping modulo `2 ^ 32`. -/
def enforce_pow (ctx : Context) (left right : FieldExpression) (env : Env) (cs : CS) :
    Except GenError (GU32 × Env × CS) :=
  match get_u32_value ctx left env cs with
  | .error e => .error e
  | .ok (l, env1, cs1) =>
    match get_u32_value ctx right env1 cs1 with
    | .error e => .error e
    | .ok (r, env2, cs2) =>
      .ok (.Allocated cs2.gates ((l.val ^ r.val) % 4294967296), env2, allocGate cs2)
termination_by (sizeOf left + sizeOf right, 5)
decreasing_by all_goals (simp_wf; simp [Prod.lex_def]; try omega)

/-- The `enforce_boolean_expression` method: the Boolean Resolver.  The
`IfElse` arm resolves the condition, requires a `Boolean` result, and
compares it structurally against the constant `true` boolean; only the
selected branch is then resolved. -/
def enforce_boolean_expression (ctx : Context) (expression : BooleanExpression) (env : Env) (cs : CS) :
    Except GenError (ResolvedValue × Env × CS) :=
  match expression with
  | .Variable v =>
    match bool_from_variable ctx v env cs with
    | .error e => .error e
    | .ok (b, env1, cs1) => .ok (.Boolean b, env1, cs1)
  | .Value b => .ok (.Boolean (.Constant b), env, cs)
  | .Not e1 =>
    match enforce_not ctx e1 env cs with
    | .error e => .error e
    | .ok (b, env1, cs1) => .ok (.Boolean b, env1, cs1)
  | .Or l r =>
    match enforce_or ctx l r env cs with
    | .error e => .error e
    | .ok (b, env1, cs1) => .ok (.Boolean b, env1, cs1)
  | .And l r =>
    match enforce_and ctx l r env cs with
    | .error e => .error e
    | .ok (b, env1, cs1) => .ok (.Boolean b, env1, cs1)
  | .BoolEq l r =>
    match enforce_bool_equality ctx l r env cs with
    | .error e => .error e
    | .ok (b, env1, cs1) => .ok (.Boolean b, env1, cs1)
  | .FieldEq l r =>
    match enforce_field_equality ctx l r env cs with
    | .error e => .error e
    | .ok (b, env1, cs1) => .ok (.Boolean b, env1, cs1)
  | .IfElse first second third =>
    match enforce_boolean_expression ctx first env cs with
    | .error e => .error e
    | .ok (.Boolean resolved, env1, cs1) =>
      if resolved = GBool.Constant true then enforce_boolean_expression ctx second env1 cs1
      else enforce_boolean_expression ctx third env1 cs1
    | .ok _ => .error .TypeMismatch
  | .Array xs =>
    match enforce_boolean_array ctx xs env cs with
    | .error e => .error e
    | .ok (vals, env1, cs1) => .ok (.BooleanArray vals, env1, cs1)
termination_by (sizeOf expression, 3)
decreasing_by all_goals (simp_wf; simp [Prod.lex_def]; try omega)

/-- The element loop of the `Array` arm of `enforce_boolean_expression`:
spread elements are unsupported; each plain element is resolved and must
come back as a `Boolean` value. -/
def enforce_boolean_array (ctx : Context) (elements : List BooleanSpreadOrExpression) (env : Env) (cs : CS) :
    Except GenError (List GBool × Env × CS) :=
  match elements with
  | [] => .ok ([], env, cs)
  | .Spread :: _ => .error .Unsupported
  | .BooleanExpression e1 :: rest =>
    match enforce_boolean_expression ctx e1 env cs with
    | .error e => .error e
    | .ok (.Boolean b, env1, cs1) =>
      match enforce_boolean_array ctx rest env1 cs1 with
      | .error e => .error e
      | .ok (bs, env2, cs2) => .ok (b :: bs, env2, cs2)
    | .ok _ => .error .TypeMismatch
termination_by (sizeOf elements, 3)
decreasing_by all_goals (simp_wf; simp [Prod.lex_def]; try omega)

/-- The `enforce_field_expression` method: the Field Resolver.  Its
`IfElse` arm resolves the condition through the Boolean Resolver and
selects a branch exactly as the boolean `IfElse` does. -/
def enforce_field_expression (ctx : Context) (expression : FieldExpression) (env : Env) (cs : CS) :
    Except GenError (ResolvedValue × Env × CS) :=
  match expression with
  | .Variable v =>
    match u32_from_variable ctx v env cs with
    | .error e => .error e
    | .ok (n, env1, cs1) => .ok (.FieldElement n, env1, cs1)
  | .Number n => .ok (.FieldElement (.Constant (n % 4294967296)), env, cs)
  | .Add l r =>
    match enforce_add ctx l r env cs with
    | .error e => .error e
    | .ok (n, env1, cs1) => .ok (.FieldElement n, env1, cs1)
  | .Sub l r =>
    match enforce_sub ctx l r env cs with
    | .error e => .error e
    | .ok (n, env1, cs1) => .ok (.FieldElement n, env1, cs1)
  | .Mul l r =>
    match enforce_mul ctx l r env cs with
    | .error e => .error e
    | .ok (n, env1, cs1) => .ok (.FieldElement n, env1, cs1)
  | .Div l r =>
    match enforce_div ctx l r env cs with
    | .error e => .error e
    | .ok (n, env1, cs1) => .ok (.FieldElement n, env1, cs1)
  | .Pow l r =>
    match enforce_pow ctx l r env cs with
    | .error e => .error e
    | .ok (n, env1, cs1) => .ok (.FieldElement n, env1, cs1)
  | .IfElse first second third =>
    match enforce_boolean_expression ctx first env cs with
    | .error e => .error e
    | .ok (.Boolean resolved, env1, cs1) =>
      if resolved = GBool.Constant true then enforce_field_expression ctx second env1 cs1
      else enforce_field_expression ctx third env1 cs1
    | .ok _ => .error .TypeMismatch
  | .Array xs =>
    match enforce_field_array ctx xs env cs with
    | .error e => .error e
    | .ok (vals, env1, cs1) => .ok (.FieldElementArray vals, env1, cs1)
termination_by (sizeOf expression, 3)
decreasing_by all_goals (simp_wf; simp [Prod.lex_def]; try omega)

/-- The element loop of the `Array` arm of `enforce_field_expression`. -/
def enforce_field_array (ctx : Context) (elements : List FieldSpreadOrExpression) (env : Env) (cs : CS) :
    Except GenError (List GU32 × Env × CS) :=
  match elements with
  | [] => .ok ([], env, cs)
  | .Spread :: _ => .error .Unsupported
  | .FieldExpression e1 :: rest =>
    match enforce_field_expression ctx e1 env cs with
    | .error e => .error e
    | .ok (.FieldElement n, env1, cs1) =>
      match enforce_field_array ctx rest env1 cs1 with
      | .error e => .error e
      | .ok (ns, env2, cs2) => .ok (n :: ns, env2, cs2)
    | .ok _ => .error .TypeMismatch
termination_by (sizeOf elements, 3)
decreasing_by all_goals (simp_wf; simp [Prod.lex_def]; try omega)
end

/-- The `enforce_index` method: resolve an index expression through the
Field Resolver to a concrete non-negative integer (`value.unwrap() as
usize`); a non-integer resolution mirrors the "must resolve to a uint32"
panic. -/
def enforce_index (ctx : Context) (index : FieldExpression) (env : Env) (cs : CS) :
    Except GenError (Nat × Env × CS) :=
  match enforce_field_expression ctx index env cs with
  | .error e => .error e
  | .ok (.FieldElement n, env1, cs1) => .ok (n.val, env1, cs1)
  | .ok _ => .error .TypeMismatch

mutual
/-- The `enforce_expression` method: dispatch on the statically known
shape of the expression.  A bound variable returns its stored value
unchanged; an unbound variable consults the witness provider: with no
process argument it mirrors the `expect("variable declaration not passed
in")` panic, otherwise the argument's parse as a boolean decides between
the boolean and the integer input path. -/
def enforce_expression (ctx : Context) (expression : Expression) (env : Env) (cs : CS) :
    Except GenError (ResolvedValue × Env × CS) :=
  match expression with
  | .Boolean be => enforce_boolean_expression ctx be env cs
  | .FieldElement fe => enforce_field_expression ctx fe env cs
  | .Variable v =>
    match envLookup env v with
    | some value => .ok (value, env, cs)
    | none =>
      match ctx.arg with
      | none => .error .MissingWitness
      | some s =>
        if (parseBool s).isSome then
          match bool_from_variable ctx v env cs with
          | .error e => .error e
          | .ok (b, env1, cs1) => .ok (.Boolean b, env1, cs1)
        else
          match u32_from_variable ctx v env cs with
          | .error e => .error e
          | .ok (n, env1, cs1) => .ok (.FieldElement n, env1, cs1)
  | .Struct name members => enforce_struct_expression ctx name members env cs
  | .ArrayAccess arr idx => enforce_array_access_expression ctx arr idx env cs
termination_by (sizeOf expression, 3)
decreasing_by all_goals (simp_wf; simp [Prod.lex_def]; try omega)

/-- The `enforce_struct_expression` method: the struct name must already
be bound to a `StructDefinition` — the spec (section 4.5) names the
failure `UndefinedStruct` whether the name is unbound or bound to another
variant (the two `unimplemented!` sites).  Declared fields are paired
with the supplied initializers positionally and the pairs are processed
by `enforce_struct_members`; on success the instance stores the original
member list. -/
def enforce_struct_expression (ctx : Context) (v : Variable) (members : List StructMember) (env : Env) (cs : CS) :
    Except GenError (ResolvedValue × Env × CS) :=
  match envLookup env v with
  | some (.StructDefinition sd) =>
    match enforce_struct_members ctx sd.fields members env cs with
    | .error e => .error e
    | .ok (env1, cs1) => .ok (.StructExpression v members, env1, cs1)
  | some _ => .error .UndefinedStruct
  | none => .error .UndefinedStruct
termination_by (sizeOf members, 4)
decreasing_by all_goals (simp_wf; simp [Prod.lex_def]; try omega)

/-- The positional `zip` + `for_each` loop of `enforce_struct_expression`:
pairs beyond the shorter of the two lists are dropped by `zip`; each
pair's field names must match exactly (`FieldMismatch` otherwise), and
the pair's initializer is resolved for its allocation side effects, the
result being discarded. -/
def enforce_struct_members (ctx : Context) (fields : List StructField) (members : List StructMember) (env : Env) (cs : CS) :
    Except GenError (Env × CS) :=
  match fields, members with
  | [], _ => .ok (env, cs)
  | _ :: _, [] => .ok (env, cs)
  | field :: fs, .mk mv mex :: ms =>
    if field.varName = mv then
      match enforce_expression ctx mex env cs with
      | .error e => .error e
      | .ok (_, env1, cs1) => enforce_struct_members ctx fs ms env1 cs1
    else .error .FieldMismatch
termination_by (sizeOf members, 3)
decreasing_by all_goals (simp_wf; simp [Prod.lex_def]; try omega)

/-- The `enforce_array_access_expression` method: resolve the array
expression; for a range, a missing lower bound defaults to `0` and a
missing upper bound to the array length, and the Rust slice
`array[from..to]` panics (`IndexOutOfRange`) unless `from ≤ to ≤ length`;
for a single index, `array[index]` panics unless `index < length`.
A non-array resolution mirrors the "Cannot access element of untyped
array" panic. -/
def enforce_array_access_expression (ctx : Context) (array : Expression) (index : FieldRangeOrExpression) (env : Env) (cs : CS) :
    Except GenError (ResolvedValue × Env × CS) :=
  match enforce_expression ctx array env cs with
  | .error e => .error e
  | .ok (.FieldElementArray xs, env1, cs1) =>
    match index with
    | .Range f t =>
      match (match f with
             | some fe => enforce_index ctx fe env1 cs1
             | none => .ok (0, env1, cs1)) with
      | .error e => .error e
      | .ok (fromN, env2, cs2) =>
        match (match t with
               | some te => enforce_index ctx te env2 cs2
               | none => .ok (xs.length, env2, cs2)) with
        | .error e => .error e
        | .ok (toN, env3, cs3) =>
          if fromN ≤ toN ∧ toN ≤ xs.length then
            .ok (.FieldElementArray ((xs.drop fromN).take (toN - fromN)), env3, cs3)
          else .error .IndexOutOfRange
    | .FieldExpression ie =>
      match enforce_index ctx ie env1 cs1 with
      | .error e => .error e
      | .ok (i, env2, cs2) =>
        if h : i < xs.length then .ok (.FieldElement (xs.get ⟨i, h⟩), env2, cs2)
        else .error .IndexOutOfRange
  | .ok (.BooleanArray xs, env1, cs1) =>
    match index with
    | .Range f t =>
      match (match f with
             | some fe => enforce_index ctx fe env1 cs1
             | none => .ok (0, env1, cs1)) with
      | .error e => .error e
      | .ok (fromN, env2, cs2) =>
        match (match t with
               | some te => enforce_index ctx te env2 cs2
               | none => .ok (xs.length, env2, cs2)) with
        | .error e => .error e
        | .ok (toN, env3, cs3) =>
          if fromN ≤ toN ∧ toN ≤ xs.length then
            .ok (.BooleanArray ((xs.drop fromN).take (toN - fromN)), env3, cs3)
          else .error .IndexOutOfRange
    | .FieldExpression ie =>
      match enforce_index ctx ie env1 cs1 with
      | .error e => .error e
      | .ok (i, env2, cs2) =>
        if h : i < xs.length then .ok (.Boolean (xs.get ⟨i, h⟩), env2, cs2)
        else .error .IndexOutOfRange
  | .ok _ => .error .TypeMismatch
termination_by (sizeOf array, 4)
decreasing_by all_goals (simp_wf; simp [Prod.lex_def]; try omega)
end

/-- One member of a struct-instance rendering: `name: expression`. -/
def renderMember (m : StructMember) : String :=
  m.varName ++ ": " ++ renderExpression m.expression

/-- The `impl fmt::Display for ResolvedValue` of `constraints.rs`.
Arrays render bracketed and comma-separated; a struct instance renders as
the struct name, a space, an opening brace, the members, a closing brace.
The `StructDefinition` and `Function` arms hit the
`unimplemented!("resolve values not finished")` catch-all, mapped to
`Unsupported`. -/
def renderResolvedValue : ResolvedValue → Except GenError String
  | .Boolean g => .ok (renderBool g.val)
  | .BooleanArray xs =>
      .ok ("[" ++ renderElems (xs.map (fun g => renderBool g.val)) ++ "]")
  | .FieldElement u => .ok (toString u.val)
  | .FieldElementArray xs =>
      .ok ("[" ++ renderElems (xs.map (fun u => toString u.val)) ++ "]")
  | .StructExpression v members =>
      .ok (v ++ " \x7b" ++ renderElems (members.map renderMember) ++ "\x7d")
  | _ => .error .Unsupported

/-- The `Return` arm's per-expression loop of `enforce_statement`: each
returned expression is resolved for its side effect and its diagnostic
rendering is produced (whose unfinished arms can themselves abort);
results are discarded.  A returned variable must be bound (the `unwrap`
on the lookup, mapped to `UndefinedName`); struct-valued and
array-access returns are unsupported. -/
def enforce_return_expressions (ctx : Context) (expressions : List Expression) (env : Env) (cs : CS) :
    Except GenError (Env × CS) :=
  match expressions with
  | [] => .ok (env, cs)
  | e1 :: rest =>
    match e1 with
    | .Boolean be =>
      match enforce_boolean_expression ctx be env cs with
      | .error e => .error e
      | .ok (res, env1, cs1) =>
        match renderResolvedValue res with
        | .error e => .error e
        | .ok _ => enforce_return_expressions ctx rest env1 cs1
    | .FieldElement fe =>
      match enforce_field_expression ctx fe env cs with
      | .error e => .error e
      | .ok (res, env1, cs1) =>
        match renderResolvedValue res with
        | .error e => .error e
        | .ok _ => enforce_return_expressions ctx rest env1 cs1
    | .Variable v =>
      match envLookup env v with
      | none => .error .UndefinedName
      | some value =>
        match renderResolvedValue value with
        | .error e => .error e
        | .ok _ => enforce_return_expressions ctx rest env cs
    | .Struct _ _ => .error .Unsupported
    | .ArrayAccess _ _ => .error .Unsupported

/-- The `enforce_statement` method: a `Definition` resolves its
expression, renders the result for the diagnostic line (an unfinished
`Display` arm aborts before the binding happens), then binds the name
unconditionally; a `Return` resolves each expression in order for its
side effects. -/
def enforce_statement (ctx : Context) (statement : Statement) (env : Env) (cs : CS) :
    Except GenError (Env × CS) :=
  match statement with
  | .Definition v expression =>
    match enforce_expression ctx expression env cs with
    | .error e => .error e
    | .ok (result, env1, cs1) =>
      match renderResolvedValue result with
      | .error e => .error e
      | .ok _ => .ok (envInsert env1 v result, cs1)
  | .Return expressions => enforce_return_expressions ctx expressions env cs

/-- The top-level statement fold of `generate_constraints`. -/
def enforce_statements (ctx : Context) (statements : List Statement) (env : Env) (cs : CS) :
    Except GenError (Env × CS) :=
  match statements with
  | [] => .ok (env, cs)
  | s :: rest =>
    match enforce_statement ctx s env cs with
    | .error e => .error e
    | .ok (env1, cs1) => enforce_statements ctx rest env1 cs1

/-- The declaration-seeding phase of `generate_constraints`: every struct
declaration is inserted as a `StructDefinition` value, then every
function declaration as a `Function` value, keyed by name. -/
def seedEnv (p : Program) : Env :=
  let env1 := p.structs.foldl (fun env pr => envInsert env pr.1 (.StructDefinition pr.2)) []
  p.functions.foldl (fun env pr => envInsert env pr.1 (.Function pr.2)) env1

/-- The `generate_constraints` entry point: a fresh empty environment is
seeded with the struct and function declarations, then the Statement
Driver is folded over the program's top-level statements in source
order, threading the environment and the sink. -/
def generate_constraints (ctx : Context) (p : Program) (cs : CS) :
    Except GenError (Env × CS) :=
  enforce_statements ctx p.statements (seedEnv p) cs

/-- The environment component of a resolver result equals the given
environment (trivially so for a failed run). -/
def envKept {α : Type} (r : Except GenError (α × Env × CS)) (env : Env) : Prop :=
  match r with
  | .ok (_, env2, _) => env2 = env
  | .error _ => True

@[simp] theorem envKept_ok {α : Type} (v : α) (env2 env : Env) (cs : CS) :
    envKept (.ok (v, env2, cs)) env ↔ env2 = env := Iff.rfl

@[simp] theorem envKept_error {α : Type} (e : GenError) (env : Env) :
    envKept (α := α) (.error e) env ↔ True := Iff.rfl

/-- `bool_from_variable` leaves the environment untouched. -/
theorem bool_from_variable_frame (ctx : Context) (v : Variable) (env : Env) (cs : CS) :
    envKept (bool_from_variable ctx v env cs) env := by
  unfold bool_from_variable
  split
  all_goals try split
  all_goals simp [envKept]

/-- `u32_from_variable` leaves the environment untouched. -/
theorem u32_from_variable_frame (ctx : Context) (v : Variable) (env : Env) (cs : CS) :
    envKept (u32_from_variable ctx v env cs) env := by
  unfold u32_from_variable
  split
  all_goals try split
  all_goals simp [envKept]

/-- Successful-run corollary of `bool_from_variable_frame`. -/
theorem bool_from_variable_frame_ok {ctx : Context} {v : Variable} {env : Env} {cs : CS}
    {b : GBool} {env1 : Env} {cs1 : CS}
    (h : bool_from_variable ctx v env cs = .ok (b, env1, cs1)) : env1 = env := by
  have h2 := bool_from_variable_frame ctx v env cs
  rw [h] at h2
  simpa using h2

/-- Successful-run corollary of `u32_from_variable_frame`. -/
theorem u32_from_variable_frame_ok {ctx : Context} {v : Variable} {env : Env} {cs : CS}
    {n : GU32} {env1 : Env} {cs1 : CS}
    (h : u32_from_variable ctx v env cs = .ok (n, env1, cs1)) : env1 = env := by
  have h2 := u32_from_variable_frame ctx v env cs
  rw [h] at h2
  simpa using h2

set_option maxHeartbeats 4000000 in
/-- No boolean- or field-resolver function modifies the environment: the
mapping is threaded through unchanged by every function of the mutual
resolver block. -/
theorem frame_core (ctx : Context) :
    (∀ (e : BooleanExpression) (env : Env) (cs : CS), envKept (get_bool_value ctx e env cs) env)
  ∧ (∀ (e : BooleanExpression) (env : Env) (cs : CS), envKept (enforce_boolean_expression ctx e env cs) env)
  ∧ (∀ (xs : List BooleanSpreadOrExpression) (env : Env) (cs : CS), envKept (enforce_boolean_array ctx xs env cs) env)
  ∧ (∀ (l r : FieldExpression) (env : Env) (cs : CS), envKept (enforce_field_equality ctx l r env cs) env)
  ∧ (∀ (e : FieldExpression) (env : Env) (cs : CS), envKept (get_u32_value ctx e env cs) env)
  ∧ (∀ (e : FieldExpression) (env : Env) (cs : CS), envKept (enforce_field_expression ctx e env cs) env)
  ∧ (∀ (xs : List FieldSpreadOrExpression) (env : Env) (cs : CS), envKept (enforce_field_array ctx xs env cs) env)
  ∧ (∀ (l r : FieldExpression) (env : Env) (cs : CS), envKept (enforce_pow ctx l r env cs) env)
  ∧ (∀ (l r : FieldExpression) (env : Env) (cs : CS), envKept (enforce_div ctx l r env cs) env)
  ∧ (∀ (l r : FieldExpression) (env : Env) (cs : CS), envKept (enforce_mul ctx l r env cs) env)
  ∧ (∀ (l r : FieldExpression) (env : Env) (cs : CS), envKept (enforce_sub ctx l r env cs) env)
  ∧ (∀ (l r : FieldExpression) (env : Env) (cs : CS), envKept (enforce_add ctx l r env cs) env)
  ∧ (∀ (l r : BooleanExpression) (env : Env) (cs : CS), envKept (enforce_bool_equality ctx l r env cs) env)
  ∧ (∀ (l r : BooleanExpression) (env : Env) (cs : CS), envKept (enforce_and ctx l r env cs) env)
  ∧ (∀ (l r : BooleanExpression) (env : Env) (cs : CS), envKept (enforce_or ctx l r env cs) env)
  ∧ (∀ (e : BooleanExpression) (env : Env) (cs : CS), envKept (enforce_not ctx e env cs) env) := by
  apply get_bool_value.mutual_induct ctx
  all_goals intros
  all_goals try simp_all [get_bool_value, enforce_boolean_expression, enforce_boolean_array,
    enforce_field_equality, get_u32_value, enforce_field_expression, enforce_field_array,
    enforce_pow, enforce_div, enforce_mul, enforce_sub, enforce_add, enforce_bool_equality,
    enforce_and, enforce_or, enforce_not, bool_from_variable_frame, u32_from_variable_frame,
    envKept]
  all_goals try exact bool_from_variable_frame ctx _ _ _
  all_goals try exact u32_from_variable_frame ctx _ _ _
  all_goals rename_i x
  all_goals first
    | exact bool_from_variable_frame_ok x
    | exact u32_from_variable_frame_ok x



/-- envKept for results carrying only environment and sink. -/
def envKept2 (r : Except GenError (Env × CS)) (env : Env) : Prop :=
  match r with
  | .ok (env2, _) => env2 = env
  | .error _ => True

@[simp] theorem envKept2_ok (env2 env : Env) (cs : CS) :
    envKept2 (.ok (env2, cs)) env ↔ env2 = env := Iff.rfl

@[simp] theorem envKept2_error (e : GenError) (env : Env) :
    envKept2 (.error e) env ↔ True := Iff.rfl

theorem enforce_boolean_expression_frame_ok {ctx : Context} {e : BooleanExpression}
    {env : Env} {cs : CS} {v : ResolvedValue} {env1 : Env} {cs1 : CS}
    (h : enforce_boolean_expression ctx e env cs = .ok (v, env1, cs1)) : env1 = env := by
  have h2 := (frame_core ctx).2.1 e env cs
  rw [h] at h2
  simpa using h2

theorem enforce_field_expression_frame_ok {ctx : Context} {e : FieldExpression}
    {env : Env} {cs : CS} {v : ResolvedValue} {env1 : Env} {cs1 : CS}
    (h : enforce_field_expression ctx e env cs = .ok (v, env1, cs1)) : env1 = env := by
  have h2 := (frame_core ctx).2.2.2.2.2.1 e env cs
  rw [h] at h2
  simpa using h2

theorem enforce_index_frame_ok {ctx : Context} {e : FieldExpression}
    {env : Env} {cs : CS} {i : Nat} {env1 : Env} {cs1 : CS}
    (h : enforce_index ctx e env cs = .ok (i, env1, cs1)) : env1 = env := by
  unfold enforce_index at h
  split at h
  all_goals simp_all
  all_goals exact enforce_field_expression_frame_ok (by assumption)

theorem enforce_index_opt_frame_ok {ctx : Context} {o : Option FieldExpression} {d : Nat}
    {env : Env} {cs : CS} {i : Nat} {env1 : Env} {cs1 : CS}
    (h : (match o with
          | some fe => enforce_index ctx fe env cs
          | none => Except.ok (d, env, cs)) = .ok (i, env1, cs1)) : env1 = env := by
  cases o with
  | none => simp_all
  | some fe => exact enforce_index_frame_ok h

set_option maxHeartbeats 4000000 in
theorem frame_expr (ctx : Context) :
    (∀ (e : Expression) (env : Env) (cs : CS), envKept (enforce_expression ctx e env cs) env)
  ∧ (∀ (arr : Expression) (idx : FieldRangeOrExpression) (env : Env) (cs : CS),
       envKept (enforce_array_access_expression ctx arr idx env cs) env)
  ∧ (∀ (v : Variable) (members : List StructMember) (env : Env) (cs : CS),
       envKept (enforce_struct_expression ctx v members env cs) env)
  ∧ (∀ (fields : List StructField) (members : List StructMember) (env : Env) (cs : CS),
       envKept2 (enforce_struct_members ctx fields members env cs) env) := by
  apply enforce_expression.mutual_induct ctx
  all_goals intros
  all_goals try simp_all [enforce_expression, enforce_array_access_expression,
    enforce_struct_expression, enforce_struct_members, envKept, envKept2,
    bool_from_variable_frame, u32_from_variable_frame]
  all_goals try exact (frame_core ctx).2.1 _ _ _
  all_goals try exact (frame_core ctx).2.2.2.2.2.1 _ _ _
  all_goals try exact bool_from_variable_frame_ok (by assumption)
  all_goals try exact u32_from_variable_frame_ok (by assumption)
  all_goals try exact enforce_index_frame_ok (by assumption)
  all_goals rename_i hf ht hcond ih1
  all_goals try exact (enforce_index_opt_frame_ok ht).trans (enforce_index_opt_frame_ok hf)
  all_goals try (rw [dif_neg (by omega)]; simp)
  all_goals (rw [if_neg (fun hc => absurd (hcond hc.1) (by omega))]; simp)



theorem envLookup_cons (a : Variable × ResolvedValue) (t : Env) (y : Variable) :
    envLookup (a :: t) y = if a.1 = y then some a.2 else envLookup t y := by
  by_cases h : a.1 = y <;> simp [envLookup, List.find?, h]

theorem envLookup_filter_ne (t : Env) (x y : Variable) (h : ¬x = y) :
    envLookup (t.filter (fun p => !decide (p.1 = x))) y = envLookup t y := by
  induction t with
  | nil => rfl
  | cons a t ih =>
    rw [List.filter_cons]
    by_cases hax : a.1 = x
    · have hay : ¬a.1 = y := fun hy => h (by rw [← hax, hy])
      simp [hax, envLookup_cons, hay, ih, h]
    · rw [if_pos (by simp [hax])]
      rw [envLookup_cons, envLookup_cons, ih]

theorem envLookup_envInsert (env : Env) (x y : Variable) (v : ResolvedValue) :
    envLookup (envInsert env x v) y = if x = y then some v else envLookup env y := by
  unfold envInsert
  rw [envLookup_cons]
  by_cases h : x = y
  · simp [h]
  · simp only [ne_eq, decide_not, h, if_false]
    exact envLookup_filter_ne env x y h



/-- C1 -/
theorem ifelse_resolves_selected_branch_only :
    (∀ (ctx : Context) (c t e : BooleanExpression) (env env1 : Env) (cs cs1 : CS) (g : GBool),
       enforce_boolean_expression ctx c env cs = .ok (.Boolean g, env1, cs1) →
       enforce_boolean_expression ctx (.IfElse c t e) env cs =
         (if g = GBool.Constant true then enforce_boolean_expression ctx t env1 cs1
          else enforce_boolean_expression ctx e env1 cs1))
  ∧ (∀ (ctx : Context) (c : BooleanExpression) (t e : FieldExpression) (env env1 : Env) (cs cs1 : CS) (g : GBool),
       enforce_boolean_expression ctx c env cs = .ok (.Boolean g, env1, cs1) →
       enforce_field_expression ctx (.IfElse c t e) env cs =
         (if g = GBool.Constant true then enforce_field_expression ctx t env1 cs1
          else enforce_field_expression ctx e env1 cs1)) := by
  constructor
  · intro ctx c t e env env1 cs cs1 g h
    rw [enforce_boolean_expression]
    rw [h]
  · intro ctx c t e env env1 cs cs1 g h
    rw [enforce_field_expression]
    rw [h]

theorem ifelse_witness :
    enforce_boolean_expression ⟨none⟩
        (.IfElse (.Value true) (.Or (.Value false) (.Value true)) (.Value false)) [] ⟨0⟩
      = enforce_boolean_expression ⟨none⟩ (.Or (.Value false) (.Value true)) [] ⟨0⟩
  ∧ enforce_field_expression ⟨none⟩
        (.IfElse (.Value false) (.Number 1) (.Number 2)) [] ⟨0⟩
      = enforce_field_expression ⟨none⟩ (.Number 2) [] ⟨0⟩ := by
  constructor
  · have h0 : enforce_boolean_expression ⟨none⟩ (.Value true) [] ⟨0⟩
        = .ok (.Boolean (.Constant true), [], ⟨0⟩) := by
      rw [enforce_boolean_expression]
    have h := ifelse_resolves_selected_branch_only.1 ⟨none⟩ (.Value true)
      (.Or (.Value false) (.Value true)) (.Value false) [] [] ⟨0⟩ ⟨0⟩ (.Constant true) h0
    simpa using h
  · have h0 : enforce_boolean_expression ⟨none⟩ (.Value false) [] ⟨0⟩
        = .ok (.Boolean (.Constant false), [], ⟨0⟩) := by
      rw [enforce_boolean_expression]
    have h := ifelse_resolves_selected_branch_only.2 ⟨none⟩ (.Value false)
      (.Number 1) (.Number 2) [] [] ⟨0⟩ ⟨0⟩ (.Constant false) h0
    simpa using h

/-- C2 -/
theorem equality_enforcement_constant_true :
    (∀ (ctx : Context) (l r : BooleanExpression) (env env1 env2 : Env) (cs cs1 cs2 : CS) (bl br : GBool),
       get_bool_value ctx l env cs = .ok (bl, env1, cs1) →
       get_bool_value ctx r env1 cs1 = .ok (br, env2, cs2) →
       enforce_boolean_expression ctx (.BoolEq l r) env cs =
         (if bl.val = br.val then .ok (.Boolean (.Constant true), env2, allocGate cs2)
          else .error .GateAllocationFailure))
  ∧ (∀ (ctx : Context) (l r : FieldExpression) (env env1 env2 : Env) (cs cs1 cs2 : CS) (nl nr : GU32),
       get_u32_value ctx l env cs = .ok (nl, env1, cs1) →
       get_u32_value ctx r env1 cs1 = .ok (nr, env2, cs2) →
       enforce_boolean_expression ctx (.FieldEq l r) env cs =
         (if nl.val = nr.val then .ok (.Boolean (.Constant true), env2, allocGate cs2)
          else .error .GateAllocationFailure)) := by
  constructor
  · intro ctx l r env env1 env2 cs cs1 cs2 bl br h1 h2
    rw [enforce_boolean_expression, enforce_bool_equality]
    simp only [h1, h2]
    by_cases hv : bl.val = br.val <;> simp [hv]
  · intro ctx l r env env1 env2 cs cs1 cs2 nl nr h1 h2
    rw [enforce_boolean_expression, enforce_field_equality]
    simp only [h1, h2]
    by_cases hv : nl.val = nr.val <;> simp [hv]

theorem equality_enforcement_witness :
    enforce_boolean_expression ⟨none⟩ (.BoolEq (.Value true) (.Value true)) [] ⟨0⟩
      = .ok (.Boolean (.Constant true), [], ⟨1⟩)
  ∧ enforce_boolean_expression ⟨none⟩ (.FieldEq (.Number 3) (.Number 4)) [] ⟨0⟩
      = .error .GateAllocationFailure := by
  constructor
  · have h := equality_enforcement_constant_true.1 ⟨none⟩ (.Value true) (.Value true)
      [] [] [] ⟨0⟩ ⟨0⟩ ⟨0⟩ (.Constant true) (.Constant true)
      (by rw [get_bool_value]) (by rw [get_bool_value])
    simpa [GBool.val, allocGate] using h
  · have h := equality_enforcement_constant_true.2 ⟨none⟩ (.Number 3) (.Number 4)
      [] [] [] ⟨0⟩ ⟨0⟩ ⟨0⟩ (.Constant 3) (.Constant 4)
      (by rw [get_u32_value]) (by rw [get_u32_value])
    simpa [GU32.val] using h



/-- C4 -/
theorem single_index_access_bounds :
    (∀ (ctx : Context) (arrE : Expression) (ie : FieldExpression) (env env1 env2 : Env)
       (cs cs1 cs2 : CS) (xs : List GU32) (i : Nat),
       enforce_expression ctx arrE env cs = .ok (.FieldElementArray xs, env1, cs1) →
       enforce_index ctx ie env1 cs1 = .ok (i, env2, cs2) →
       enforce_array_access_expression ctx arrE (.FieldExpression ie) env cs =
         (if h : i < xs.length then .ok (.FieldElement (xs.get ⟨i, h⟩), env2, cs2)
          else .error .IndexOutOfRange))
  ∧ (∀ (ctx : Context) (arrE : Expression) (ie : FieldExpression) (env env1 env2 : Env)
       (cs cs1 cs2 : CS) (xs : List GBool) (i : Nat),
       enforce_expression ctx arrE env cs = .ok (.BooleanArray xs, env1, cs1) →
       enforce_index ctx ie env1 cs1 = .ok (i, env2, cs2) →
       enforce_array_access_expression ctx arrE (.FieldExpression ie) env cs =
         (if h : i < xs.length then .ok (.Boolean (xs.get ⟨i, h⟩), env2, cs2)
          else .error .IndexOutOfRange)) := by
  constructor
  · intro ctx arrE ie env env1 env2 cs cs1 cs2 xs i h1 h2
    rw [enforce_array_access_expression]
    simp only [h1, h2]
  · intro ctx arrE ie env env1 env2 cs cs1 cs2 xs i h1 h2
    rw [enforce_array_access_expression]
    simp only [h1, h2]

theorem single_index_access_witness :
    enforce_array_access_expression ⟨none⟩
        (.FieldElement (.Array [.FieldExpression (.Number 10), .FieldExpression (.Number 20)]))
        (.FieldExpression (.Number 7)) [] ⟨0⟩ = .error .IndexOutOfRange
  ∧ enforce_array_access_expression ⟨none⟩
        (.Boolean (.Array [.BooleanExpression (.Value true)]))
        (.FieldExpression (.Number 0)) [] ⟨0⟩ = .ok (.Boolean (.Constant true), [], ⟨0⟩) := by
  constructor
  · have h1 : enforce_expression ⟨none⟩
        (.FieldElement (.Array [.FieldExpression (.Number 10), .FieldExpression (.Number 20)])) [] ⟨0⟩
        = .ok (.FieldElementArray [.Constant 10, .Constant 20], [], ⟨0⟩) := by
      simp [enforce_expression, enforce_field_expression, enforce_field_array]
    have h2 : enforce_index ⟨none⟩ (.Number 7) [] ⟨0⟩ = .ok (7, [], ⟨0⟩) := by
      simp [enforce_index, enforce_field_expression, GU32.val]
    have h := single_index_access_bounds.1 ⟨none⟩
      (.FieldElement (.Array [.FieldExpression (.Number 10), .FieldExpression (.Number 20)]))
      (.Number 7) [] [] [] ⟨0⟩ ⟨0⟩ ⟨0⟩ [.Constant 10, .Constant 20] 7 h1 h2
    simpa using h
  · have h1 : enforce_expression ⟨none⟩
        (.Boolean (.Array [.BooleanExpression (.Value true)])) [] ⟨0⟩
        = .ok (.BooleanArray [.Constant true], [], ⟨0⟩) := by
      simp [enforce_expression, enforce_boolean_expression, enforce_boolean_array]
    have h2 : enforce_index ⟨none⟩ (.Number 0) [] ⟨0⟩ = .ok (0, [], ⟨0⟩) := by
      simp [enforce_index, enforce_field_expression, GU32.val]
    have h := single_index_access_bounds.2 ⟨none⟩
      (.Boolean (.Array [.BooleanExpression (.Value true)]))
      (.Number 0) [] [] [] ⟨0⟩ ⟨0⟩ ⟨0⟩ [.Constant true] 0 h1 h2
    simpa using h



/-- C5 -/
theorem slice_decomposition :
    (∀ (ctx : Context) (arrE : Expression) (k : Nat) (env env1 : Env) (cs cs1 : CS) (xs : List GU32),
       enforce_expression ctx arrE env cs = .ok (.FieldElementArray xs, env1, cs1) →
       k ≤ xs.length → xs.length < 4294967296 →
       enforce_array_access_expression ctx arrE (.Range none (some (.Number k))) env cs
           = .ok (.FieldElementArray (xs.take k), env1, cs1)
         ∧ enforce_array_access_expression ctx arrE (.Range (some (.Number k)) none) env cs
           = .ok (.FieldElementArray (xs.drop k), env1, cs1)
         ∧ xs.take k ++ xs.drop k = xs)
  ∧ (∀ (ctx : Context) (arrE : Expression) (k : Nat) (env env1 : Env) (cs cs1 : CS) (xs : List GBool),
       enforce_expression ctx arrE env cs = .ok (.BooleanArray xs, env1, cs1) →
       k ≤ xs.length → xs.length < 4294967296 →
       enforce_array_access_expression ctx arrE (.Range none (some (.Number k))) env cs
           = .ok (.BooleanArray (xs.take k), env1, cs1)
         ∧ enforce_array_access_expression ctx arrE (.Range (some (.Number k)) none) env cs
           = .ok (.BooleanArray (xs.drop k), env1, cs1)
         ∧ xs.take k ++ xs.drop k = xs) := by
  constructor
  · intro ctx arrE k env env1 cs cs1 xs h1 hk hlen
    have hkmod : k % 4294967296 = k := Nat.mod_eq_of_lt (lt_of_le_of_lt hk hlen)
    have hidx : ∀ (env2 : Env) (cs2 : CS), enforce_index ctx (.Number k) env2 cs2
        = .ok (k, env2, cs2) := by
      intro env2 cs2
      simp [enforce_index, enforce_field_expression, GU32.val, hkmod]
    refine ⟨?_, ?_, List.take_append_drop k xs⟩
    · rw [enforce_array_access_expression]
      simp only [h1, hidx]
      rw [if_pos ⟨Nat.zero_le k, hk⟩]
      simp
    · rw [enforce_array_access_expression]
      simp only [h1, hidx]
      rw [if_pos ⟨hk, Nat.le_refl xs.length⟩]
      have : (xs.drop k).take (xs.length - k) = xs.drop k := by
        rw [← List.length_drop]
        exact List.take_length (xs.drop k)
      simp [this]
  · intro ctx arrE k env env1 cs cs1 xs h1 hk hlen
    have hkmod : k % 4294967296 = k := Nat.mod_eq_of_lt (lt_of_le_of_lt hk hlen)
    have hidx : ∀ (env2 : Env) (cs2 : CS), enforce_index ctx (.Number k) env2 cs2
        = .ok (k, env2, cs2) := by
      intro env2 cs2
      simp [enforce_index, enforce_field_expression, GU32.val, hkmod]
    refine ⟨?_, ?_, List.take_append_drop k xs⟩
    · rw [enforce_array_access_expression]
      simp only [h1, hidx]
      rw [if_pos ⟨Nat.zero_le k, hk⟩]
      simp
    · rw [enforce_array_access_expression]
      simp only [h1, hidx]
      rw [if_pos ⟨hk, Nat.le_refl xs.length⟩]
      have : (xs.drop k).take (xs.length - k) = xs.drop k := by
        rw [← List.length_drop]
        exact List.take_length (xs.drop k)
      simp [this]

theorem slice_decomposition_witness :
    enforce_array_access_expression ⟨none⟩
        (.FieldElement (.Array [.FieldExpression (.Number 10), .FieldExpression (.Number 20),
          .FieldExpression (.Number 30)]))
        (.Range none (some (.Number 1))) [] ⟨0⟩
      = .ok (.FieldElementArray [.Constant 10], [], ⟨0⟩)
  ∧ enforce_array_access_expression ⟨none⟩
        (.FieldElement (.Array [.FieldExpression (.Number 10), .FieldExpression (.Number 20),
          .FieldExpression (.Number 30)]))
        (.Range (some (.Number 1)) none) [] ⟨0⟩
      = .ok (.FieldElementArray [.Constant 20, .Constant 30], [], ⟨0⟩)
  ∧ [GU32.Constant 10].append [GU32.Constant 20, GU32.Constant 30]
      = [GU32.Constant 10, GU32.Constant 20, GU32.Constant 30] := by
  have h1 : enforce_expression ⟨none⟩
      (.FieldElement (.Array [.FieldExpression (.Number 10), .FieldExpression (.Number 20),
        .FieldExpression (.Number 30)])) [] ⟨0⟩
      = .ok (.FieldElementArray [.Constant 10, .Constant 20, .Constant 30], [], ⟨0⟩) := by
    simp [enforce_expression, enforce_field_expression, enforce_field_array]
  have h := slice_decomposition.1 ⟨none⟩
    (.FieldElement (.Array [.FieldExpression (.Number 10), .FieldExpression (.Number 20),
      .FieldExpression (.Number 30)])) 1 [] [] ⟨0⟩ ⟨0⟩
    [.Constant 10, .Constant 20, .Constant 30] h1 (by simp) (by simp)
  exact ⟨by simpa using h.1, by simpa using h.2.1, by simp⟩



/-- C6 -/
theorem definition_bind_then_lookup :
    (∀ (ctx : Context) (n : Variable) (e : Expression) (env env1 : Env) (cs cs1 : CS)
       (v : ResolvedValue) (s : String),
       enforce_expression ctx e env cs = .ok (v, env1, cs1) →
       renderResolvedValue v = .ok s →
       enforce_statement ctx (.Definition n e) env cs = .ok (envInsert env1 n v, cs1)
         ∧ enforce_expression ctx (.Variable n) (envInsert env1 n v) cs1
             = .ok (v, envInsert env1 n v, cs1))
  ∧ (∀ (env : Env) (x : Variable) (w : ResolvedValue), envLookup (envInsert env x w) x = some w) := by
  constructor
  · intro ctx n e env env1 cs cs1 v s h1 h2
    constructor
    · rw [enforce_statement]
      simp only [h1, h2]
    · rw [enforce_expression]
      simp [envLookup_envInsert]
  · intro env x w
    simp [envLookup_envInsert]

theorem definition_bind_then_lookup_witness :
    enforce_statement ⟨none⟩ (.Definition "a" (.Boolean (.Value true))) [] ⟨0⟩
        = .ok (envInsert [] "a" (.Boolean (.Constant true)), ⟨0⟩)
  ∧ enforce_expression ⟨none⟩ (.Variable "a") (envInsert [] "a" (.Boolean (.Constant true))) ⟨0⟩
        = .ok (.Boolean (.Constant true), envInsert [] "a" (.Boolean (.Constant true)), ⟨0⟩) := by
  have h := definition_bind_then_lookup.1 ⟨none⟩ "a" (.Boolean (.Value true)) [] [] ⟨0⟩ ⟨0⟩
    (.Boolean (.Constant true)) "true"
    (by rw [enforce_expression, enforce_boolean_expression])
    (by simp [renderResolvedValue, renderBool, GBool.val])
  exact ⟨h.1, h.2⟩

/-- C9 -/
theorem struct_positional_truncation :
    (∀ (ctx : Context) (env : Env) (cs : CS) (fields : List StructField),
       enforce_struct_members ctx fields [] env cs = .ok (env, cs))
  ∧ (∀ (ctx : Context) (env : Env) (cs : CS) (members : List StructMember),
       enforce_struct_members ctx [] members env cs = .ok (env, cs))
  ∧ (∀ (ctx : Context) (name : Variable) (members : List StructMember) (env env1 : Env)
       (cs cs1 : CS) (sd : Struct),
       envLookup env name = some (.StructDefinition sd) →
       enforce_struct_members ctx sd.fields members env cs = .ok (env1, cs1) →
       enforce_struct_expression ctx name members env cs
         = .ok (.StructExpression name members, env1, cs1)) := by
  refine ⟨?_, ?_, ?_⟩
  · intro ctx env cs fields
    cases fields <;> rw [enforce_struct_members]
  · intro ctx env cs members
    rw [enforce_struct_members]
  · intro ctx name members env env1 cs cs1 sd h1 h2
    rw [enforce_struct_expression]
    simp only [h1, h2]

theorem struct_positional_truncation_witness :
    enforce_struct_expression ⟨none⟩ "Point"
        [.mk "x" (.FieldElement (.Number 1)), .mk "y" (.FieldElement (.Number 2)),
         .mk "z" (.FieldElement (.Number 3))]
        [("Point", .StructDefinition ⟨[⟨"x", .FieldElement⟩, ⟨"y", .FieldElement⟩]⟩)] ⟨0⟩
      = .ok (.StructExpression "Point"
          [.mk "x" (.FieldElement (.Number 1)), .mk "y" (.FieldElement (.Number 2)),
           .mk "z" (.FieldElement (.Number 3))],
          [("Point", .StructDefinition ⟨[⟨"x", .FieldElement⟩, ⟨"y", .FieldElement⟩]⟩)], ⟨0⟩) := by
  have h2 : enforce_struct_members ⟨none⟩
      ([⟨"x", .FieldElement⟩, ⟨"y", .FieldElement⟩] : List StructField)
      [.mk "x" (.FieldElement (.Number 1)), .mk "y" (.FieldElement (.Number 2)),
       .mk "z" (.FieldElement (.Number 3))]
      [("Point", .StructDefinition ⟨[⟨"x", .FieldElement⟩, ⟨"y", .FieldElement⟩]⟩)] ⟨0⟩
      = .ok ([("Point", .StructDefinition ⟨[⟨"x", .FieldElement⟩, ⟨"y", .FieldElement⟩]⟩)], ⟨0⟩) := by
    rw [enforce_struct_members]
    simp [enforce_expression, enforce_field_expression, StructMember.varName,
      enforce_struct_members]
  exact struct_positional_truncation.2.2 ⟨none⟩ "Point"
    [.mk "x" (.FieldElement (.Number 1)), .mk "y" (.FieldElement (.Number 2)),
     .mk "z" (.FieldElement (.Number 3))]
    [("Point", .StructDefinition ⟨[⟨"x", .FieldElement⟩, ⟨"y", .FieldElement⟩]⟩)]
    [("Point", .StructDefinition ⟨[⟨"x", .FieldElement⟩, ⟨"y", .FieldElement⟩]⟩)] ⟨0⟩ ⟨0⟩
    ⟨[⟨"x", .FieldElement⟩, ⟨"y", .FieldElement⟩]⟩
    (by simp [envLookup]) h2



/-- Processing appended field/member lists splits into sequential processing
when the first blocks have equal length. -/
theorem enforce_struct_members_append (ctx : Context) :
    ∀ (fs1 : List StructField) (ms1 : List StructMember) (fs2 : List StructField)
      (ms2 : List StructMember) (env : Env) (cs : CS), fs1.length = ms1.length →
      enforce_struct_members ctx (fs1 ++ fs2) (ms1 ++ ms2) env cs =
        (match enforce_struct_members ctx fs1 ms1 env cs with
         | .error e => .error e
         | .ok (env1, cs1) => enforce_struct_members ctx fs2 ms2 env1 cs1) := by
  intro fs1
  induction fs1 with
  | nil =>
    intro ms1 fs2 ms2 env cs hlen
    have : ms1 = [] := List.eq_nil_of_length_eq_zero (by simpa using hlen.symm)
    subst this
    simp [enforce_struct_members]
  | cons f fs ih =>
    intro ms1 fs2 ms2 env cs hlen
    cases ms1 with
    | nil => simp at hlen
    | cons m ms =>
      cases m with
      | mk mv mex =>
        simp only [List.cons_append]
        rw [enforce_struct_members, enforce_struct_members]
        by_cases hv : f.varName = mv
        · simp only [hv, if_pos rfl, if_true]
          cases hexp : enforce_expression ctx mex env cs with
          | error e => simp
          | ok t =>
            obtain ⟨v1, env1, cs1⟩ := t
            simp only []
            rw [ih ms fs2 ms2 env1 cs1 (by simpa using hlen)]
        · simp [hv]

/-- C3 -/
theorem struct_construction_cases :
    (∀ (ctx : Context) (name : Variable) (members : List StructMember) (env env1 : Env)
       (cs cs1 : CS) (sd : Struct),
       envLookup env name = some (.StructDefinition sd) →
       ((sd.fields.zip members).all fun pr => pr.1.varName = pr.2.varName) →
       enforce_struct_members ctx sd.fields members env cs = .ok (env1, cs1) →
       enforce_struct_expression ctx name members env cs
         = .ok (.StructExpression name members, env1, cs1))
  ∧ (∀ (ctx : Context) (name : Variable) (env env1 : Env) (cs cs1 : CS) (sd : Struct)
       (fpre : List StructField) (mpre : List StructMember) (f : StructField)
       (m : StructMember) (fs : List StructField) (ms : List StructMember),
       envLookup env name = some (.StructDefinition sd) →
       sd.fields = fpre ++ f :: fs →
       fpre.length = mpre.length →
       f.varName ≠ m.varName →
       enforce_struct_members ctx fpre mpre env cs = .ok (env1, cs1) →
       enforce_struct_expression ctx name (mpre ++ m :: ms) env cs = .error .FieldMismatch)
  ∧ (∀ (ctx : Context) (name : Variable) (members : List StructMember) (env : Env) (cs : CS),
       envLookup env name = none →
       enforce_struct_expression ctx name members env cs = .error .UndefinedStruct)
  ∧ (∀ (ctx : Context) (name : Variable) (members : List StructMember) (env : Env) (cs : CS)
       (val : ResolvedValue),
       envLookup env name = some val →
       (∀ sd : Struct, val ≠ .StructDefinition sd) →
       enforce_struct_expression ctx name members env cs = .error .UndefinedStruct) := by
  refine ⟨?_, ?_, ?_, ?_⟩
  · intro ctx name members env env1 cs cs1 sd h1 _ h2
    rw [enforce_struct_expression]
    simp only [h1, h2]
  · intro ctx name env env1 cs cs1 sd fpre mpre f m fs ms h1 hsd hlen hne h2
    cases m with
    | mk mv mex =>
      rw [enforce_struct_expression]
      simp only [h1]
      rw [hsd, enforce_struct_members_append ctx fpre mpre (f :: fs) ((.mk mv mex) :: ms) env cs hlen]
      simp only [h2]
      rw [enforce_struct_members]
      simp only [if_neg (by simpa [StructMember.varName] using hne)]
  · intro ctx name members env cs h1
    rw [enforce_struct_expression]
    simp only [h1]
  · intro ctx name members env cs val h1 h2
    cases val <;>
      first
        | (exact absurd rfl (h2 _))
        | (rw [enforce_struct_expression]; simp only [h1])

theorem struct_construction_cases_witness :
    enforce_struct_expression ⟨none⟩ "Point"
        [.mk "x" (.FieldElement (.Number 3)), .mk "y" (.FieldElement (.Number 4))]
        [("Point", .StructDefinition ⟨[⟨"x", .FieldElement⟩, ⟨"y", .FieldElement⟩]⟩)] ⟨0⟩
      = .ok (.StructExpression "Point"
          [.mk "x" (.FieldElement (.Number 3)), .mk "y" (.FieldElement (.Number 4))],
          [("Point", .StructDefinition ⟨[⟨"x", .FieldElement⟩, ⟨"y", .FieldElement⟩]⟩)], ⟨0⟩)
  ∧ enforce_struct_expression ⟨none⟩ "Point"
        [.mk "y" (.FieldElement (.Number 3)), .mk "x" (.FieldElement (.Number 4))]
        [("Point", .StructDefinition ⟨[⟨"x", .FieldElement⟩, ⟨"y", .FieldElement⟩]⟩)] ⟨0⟩
      = .error .FieldMismatch
  ∧ enforce_struct_expression ⟨none⟩ "Missing" []
        [("Point", .StructDefinition ⟨[⟨"x", .FieldElement⟩, ⟨"y", .FieldElement⟩]⟩)] ⟨0⟩
      = .error .UndefinedStruct
  ∧ enforce_struct_expression ⟨none⟩ "f" []
        [("f", .Function ⟨[]⟩)] ⟨0⟩
      = .error .UndefinedStruct := by
  refine ⟨?_, ?_, ?_, ?_⟩
  · exact struct_construction_cases.1 ⟨none⟩ "Point"
      [.mk "x" (.FieldElement (.Number 3)), .mk "y" (.FieldElement (.Number 4))]
      [("Point", .StructDefinition ⟨[⟨"x", .FieldElement⟩, ⟨"y", .FieldElement⟩]⟩)]
      [("Point", .StructDefinition ⟨[⟨"x", .FieldElement⟩, ⟨"y", .FieldElement⟩]⟩)] ⟨0⟩ ⟨0⟩
      ⟨[⟨"x", .FieldElement⟩, ⟨"y", .FieldElement⟩]⟩
      (by simp [envLookup]) (by simp [StructMember.varName])
      (by rw [enforce_struct_members]
          simp [enforce_expression, enforce_field_expression, StructMember.varName,
            enforce_struct_members])
  · exact struct_construction_cases.2.1 ⟨none⟩ "Point"
      [("Point", .StructDefinition ⟨[⟨"x", .FieldElement⟩, ⟨"y", .FieldElement⟩]⟩)]
      [("Point", .StructDefinition ⟨[⟨"x", .FieldElement⟩, ⟨"y", .FieldElement⟩]⟩)] ⟨0⟩ ⟨0⟩
      ⟨[⟨"x", .FieldElement⟩, ⟨"y", .FieldElement⟩]⟩
      [] [] ⟨"x", .FieldElement⟩ (.mk "y" (.FieldElement (.Number 3)))
      [⟨"y", .FieldElement⟩] [.mk "x" (.FieldElement (.Number 4))]
      (by simp [envLookup]) rfl rfl (by simp [StructMember.varName])
      (by rw [enforce_struct_members])
  · exact struct_construction_cases.2.2.1 ⟨none⟩ "Missing" []
      [("Point", .StructDefinition ⟨[⟨"x", .FieldElement⟩, ⟨"y", .FieldElement⟩]⟩)] ⟨0⟩
      (by simp [envLookup])
  · exact struct_construction_cases.2.2.2 ⟨none⟩ "f" [] [("f", .Function ⟨[]⟩)] ⟨0⟩
      (.Function ⟨[]⟩) (by simp [envLookup]) (by intro sd h; cases h)



/-- Pulling a prefix out of the intercalate accumulator. -/
theorem intercalate_go_append (s : String) : ∀ (l : List String) (a b : String),
    String.intercalate.go (a ++ b) s l = a ++ String.intercalate.go b s l := by
  intro l
  induction l with
  | nil => intro a b; rw [String.intercalate.go, String.intercalate.go]
  | cons c cs ih =>
    intro a b
    rw [String.intercalate.go, String.intercalate.go]
    rw [← ih]
    simp [String.append_assoc]

/-- The element/separator loop produces exactly the comma-space-joined
sequence. -/
theorem renderElems_eq_intercalate : ∀ xs : List String,
    renderElems xs = String.intercalate ", " xs := by
  intro xs
  induction xs with
  | nil => rfl
  | cons x t ih =>
    cases t with
    | nil => rfl
    | cons y r =>
      rw [renderElems, ih]
      show _ = String.intercalate.go x ", " (y :: r)
      rw [String.intercalate.go]
      have h2 : String.intercalate ", " (y :: r) = String.intercalate.go y ", " r := rfl
      rw [h2, ← intercalate_go_append ", " r (x ++ ", ") y]

/-- C8 counterexample -/
theorem struct_display_exact_form_cex :
    renderResolvedValue (.StructExpression "Point"
        [.mk "x" (.FieldElement (.Number 3)), .mk "y" (.FieldElement (.Number 4))])
      = .ok "Point \x7bx: 3, y: 4\x7d"
  ∧ "Point \x7bx: 3, y: 4\x7d" ≠ "Point \x7b x: 3, y: 4 \x7d" := by
  constructor
  · rfl
  · decide

/-- C8 amended -/
theorem display_rendering_amended :
    (∀ xs : List GBool, renderResolvedValue (.BooleanArray xs) =
        .ok ("[" ++ String.intercalate ", " (xs.map (fun g => renderBool g.val)) ++ "]"))
  ∧ (∀ xs : List GU32, renderResolvedValue (.FieldElementArray xs) =
        .ok ("[" ++ String.intercalate ", " (xs.map (fun u => toString u.val)) ++ "]"))
  ∧ (∀ (name : Variable) (members : List StructMember),
       renderResolvedValue (.StructExpression name members) =
        .ok (name ++ " \x7b" ++ String.intercalate ", " (members.map renderMember) ++ "\x7d"))
  ∧ renderResolvedValue (.StructExpression "Point"
        [.mk "x" (.FieldElement (.Number 3)), .mk "y" (.FieldElement (.Number 4))])
      = .ok "Point \x7bx: 3, y: 4\x7d" := by
  refine ⟨?_, ?_, ?_, rfl⟩
  · intro xs
    rw [renderResolvedValue, renderElems_eq_intercalate]
  · intro xs
    rw [renderResolvedValue, renderElems_eq_intercalate]
  · intro name members
    rw [renderResolvedValue, renderElems_eq_intercalate]



/-- C10 -/
theorem expression_resolution_frames_environment :
    (∀ (ctx : Context) (e : Expression) (env env1 : Env) (cs cs1 : CS) (v : ResolvedValue),
       enforce_expression ctx e env cs = .ok (v, env1, cs1) → env1 = env)
  ∧ (∀ (ctx : Context) (x : Variable) (env : Env) (cs : CS),
       envLookup env x = none → ctx.arg = some "true" →
       enforce_expression ctx (.Variable x) env cs
         = .ok (.Boolean (.Allocated cs.gates true), env, allocGate cs)
       ∧ enforce_expression ctx (.Variable x) env (allocGate cs)
         = .ok (.Boolean (.Allocated (cs.gates + 1) true), env, allocGate (allocGate cs))
       ∧ GBool.Allocated cs.gates true ≠ GBool.Allocated (cs.gates + 1) true)
  ∧ (∀ (ctx : Context) (x : Variable) (env : Env) (cs : CS) (s : String) (n : Nat),
       envLookup env x = none → ctx.arg = some s → parseBool s = none → parseU32 s = some n →
       enforce_expression ctx (.Variable x) env cs
         = .ok (.FieldElement (.Allocated cs.gates n), env, allocGate cs)) := by
  refine ⟨?_, ?_, ?_⟩
  · intro ctx e env env1 cs cs1 v h
    have h2 := (frame_expr ctx).1 e env cs
    rw [h] at h2
    simpa using h2
  · intro ctx x env cs h1 h2
    have hb : ∀ cs2 : CS, bool_from_variable ctx x env cs2
        = .ok (.Allocated cs2.gates true, env, allocGate cs2) := by
      intro cs2
      rw [bool_from_variable]
      simp [h1, h2, parseBool]
    refine ⟨?_, ?_, by simp⟩
    · rw [enforce_expression]
      simp [h1, h2, parseBool, hb]
    · rw [enforce_expression]
      simp [h1, h2, parseBool, hb, allocGate]
  · intro ctx x env cs s n h1 h2 h3 h4
    have hb : u32_from_variable ctx x env cs
        = .ok (.Allocated cs.gates n, env, allocGate cs) := by
      rw [u32_from_variable]
      simp [h1, h2, h4]
    rw [enforce_expression]
    simp [h1, h2, h3, hb]

theorem expression_resolution_frames_environment_witness :
    (enforce_expression ⟨some "true"⟩ (.Variable "w") [] ⟨5⟩
       = .ok (.Boolean (.Allocated 5 true), [], ⟨6⟩))
  ∧ (enforce_expression ⟨some "true"⟩ (.Variable "w") [] ⟨6⟩
       = .ok (.Boolean (.Allocated 6 true), [], ⟨7⟩))
  ∧ (enforce_expression ⟨some "42"⟩ (.Variable "w") [] ⟨0⟩
       = .ok (.FieldElement (.Allocated 0 42), [], ⟨1⟩))
  ∧ ([] : Env) = [] := by
  have h := expression_resolution_frames_environment.2.1 ⟨some "true"⟩ "w" [] ⟨5⟩
    (by simp [envLookup]) rfl
  have h3 := expression_resolution_frames_environment.2.2 ⟨some "42"⟩ "w" [] ⟨0⟩ "42" 42
    (by simp [envLookup]) rfl (by decide) (by decide)
  have h4 := expression_resolution_frames_environment.1 ⟨some "42"⟩ (.Variable "w") [] [] ⟨0⟩ ⟨1⟩
    (.FieldElement (.Allocated 0 42)) h3
  exact ⟨by simpa [allocGate] using h.1, by simpa [allocGate] using h.2.1,
    by simpa [allocGate] using h3, h4⟩



/-- The declaration pairs seeded by `generate_constraints`, in insertion
order: structs first, then functions. -/
def declSeeds (p : Program) : Env :=
  p.structs.map (fun pr => (pr.1, ResolvedValue.StructDefinition pr.2))
  ++ p.functions.map (fun pr => (pr.1, ResolvedValue.Function pr.2))

theorem envLookup_foldl_insert (pairs : Env) :
    ∀ (env0 : Env) (n : Variable),
      envLookup (pairs.foldl (fun env pr => envInsert env pr.1 pr.2) env0) n =
        match pairs.reverse.find? (fun pr => pr.1 = n) with
        | some pr => some pr.2
        | none => envLookup env0 n := by
  induction pairs with
  | nil => intro env0 n; rfl
  | cons a t ih =>
    intro env0 n
    rw [List.foldl_cons, ih, List.reverse_cons, List.find?_append]
    cases hfind : t.reverse.find? (fun pr => pr.1 = n) with
    | some pr => simp [hfind]
    | none =>
      simp only [hfind, Option.none_orElse]
      by_cases han : a.1 = n
      · simp [List.find?, han, envLookup_envInsert]
      · simp [List.find?, han, envLookup_envInsert]

theorem envLookup_seedEnv (p : Program) (n : Variable) :
    envLookup (seedEnv p) n =
      match (declSeeds p).reverse.find? (fun pr => pr.1 = n) with
      | some pr => some pr.2
      | none => none := by
  have h : seedEnv p = (declSeeds p).foldl (fun env pr => envInsert env pr.1 pr.2) [] := by
    unfold seedEnv declSeeds
    rw [List.foldl_append, List.foldl_map, List.foldl_map]
  rw [h, envLookup_foldl_insert]
  cases (declSeeds p).reverse.find? (fun pr => pr.1 = n) <;> rfl

/-- Replace every stored function value by one with an empty body. -/
def eraseFn : ResolvedValue → ResolvedValue
  | .Function _ => .Function ⟨[]⟩
  | v => v

/-- Erase function bodies throughout an environment. -/
def eraseEnv (env : Env) : Env := env.map (fun pr => (pr.1, eraseFn pr.2))

/-- Erase function bodies in the environment component of a resolver
result whose value component cannot store a function. -/
def eraseResV {α : Type} : Except GenError (α × Env × CS) → Except GenError (α × Env × CS)
  | .ok (v, env, cs) => .ok (v, eraseEnv env, cs)
  | .error e => .error e

/-- Erase function bodies in both components of a resolver result. -/
def eraseResRV : Except GenError (ResolvedValue × Env × CS) → Except GenError (ResolvedValue × Env × CS)
  | .ok (v, env, cs) => .ok (eraseFn v, eraseEnv env, cs)
  | .error e => .error e

@[simp] theorem eraseResV_ok {α : Type} (v : α) (env : Env) (cs : CS) :
    eraseResV (.ok (v, env, cs)) = .ok (v, eraseEnv env, cs) := rfl

@[simp] theorem eraseResV_error {α : Type} (e : GenError) :
    eraseResV (α := α) (.error e) = .error e := rfl

@[simp] theorem eraseResRV_ok (v : ResolvedValue) (env : Env) (cs : CS) :
    eraseResRV (.ok (v, env, cs)) = .ok (eraseFn v, eraseEnv env, cs) := rfl

@[simp] theorem eraseResRV_error (e : GenError) :
    eraseResRV (.error e) = .error e := rfl

theorem envLookup_eraseEnv (env : Env) (x : Variable) :
    envLookup (eraseEnv env) x = (envLookup env x).map eraseFn := by
  induction env with
  | nil => rfl
  | cons a t ih =>
    unfold eraseEnv at *
    rw [List.map_cons, envLookup_cons, envLookup_cons]
    by_cases h : a.1 = x <;> simp [h, ih]

theorem bool_from_variable_erase (ctx : Context) (v : Variable) (env : Env) (cs : CS) :
    bool_from_variable ctx v (eraseEnv env) cs = eraseResV (bool_from_variable ctx v env cs) := by
  unfold bool_from_variable
  rw [envLookup_eraseEnv]
  cases h : envLookup env v with
  | none =>
    simp only [Option.map_none]
    cases parseBool (ctx.arg.getD "true") <;> simp
  | some val => cases val <;> simp [eraseFn]

theorem u32_from_variable_erase (ctx : Context) (v : Variable) (env : Env) (cs : CS) :
    u32_from_variable ctx v (eraseEnv env) cs = eraseResV (u32_from_variable ctx v env cs) := by
  unfold u32_from_variable
  rw [envLookup_eraseEnv]
  cases h : envLookup env v with
  | none =>
    simp only [Option.map_none]
    cases parseU32 (ctx.arg.getD "1") <;> simp
  | some val => cases val <;> simp [eraseFn]

@[simp] theorem eraseFn_boolean_iff (v : ResolvedValue) (b : GBool) :
    eraseFn v = .Boolean b ↔ v = .Boolean b := by
  cases v <;> simp [eraseFn]

@[simp] theorem eraseFn_fieldelement_iff (v : ResolvedValue) (n : GU32) :
    eraseFn v = .FieldElement n ↔ v = .FieldElement n := by
  cases v <;> simp [eraseFn]

set_option maxHeartbeats 8000000 in
theorem erase_core (ctx : Context) :
    (∀ (e : BooleanExpression) (env : Env) (cs : CS),
       get_bool_value ctx e (eraseEnv env) cs = eraseResV (get_bool_value ctx e env cs))
  ∧ (∀ (e : BooleanExpression) (env : Env) (cs : CS),
       enforce_boolean_expression ctx e (eraseEnv env) cs = eraseResRV (enforce_boolean_expression ctx e env cs))
  ∧ (∀ (xs : List BooleanSpreadOrExpression) (env : Env) (cs : CS),
       enforce_boolean_array ctx xs (eraseEnv env) cs = eraseResV (enforce_boolean_array ctx xs env cs))
  ∧ (∀ (l r : FieldExpression) (env : Env) (cs : CS),
       enforce_field_equality ctx l r (eraseEnv env) cs = eraseResV (enforce_field_equality ctx l r env cs))
  ∧ (∀ (e : FieldExpression) (env : Env) (cs : CS),
       get_u32_value ctx e (eraseEnv env) cs = eraseResV (get_u32_value ctx e env cs))
  ∧ (∀ (e : FieldExpression) (env : Env) (cs : CS),
       enforce_field_expression ctx e (eraseEnv env) cs = eraseResRV (enforce_field_expression ctx e env cs))
  ∧ (∀ (xs : List FieldSpreadOrExpression) (env : Env) (cs : CS),
       enforce_field_array ctx xs (eraseEnv env) cs = eraseResV (enforce_field_array ctx xs env cs))
  ∧ (∀ (l r : FieldExpression) (env : Env) (cs : CS),
       enforce_pow ctx l r (eraseEnv env) cs = eraseResV (enforce_pow ctx l r env cs))
  ∧ (∀ (l r : FieldExpression) (env : Env) (cs : CS),
       enforce_div ctx l r (eraseEnv env) cs = eraseResV (enforce_div ctx l r env cs))
  ∧ (∀ (l r : FieldExpression) (env : Env) (cs : CS),
       enforce_mul ctx l r (eraseEnv env) cs = eraseResV (enforce_mul ctx l r env cs))
  ∧ (∀ (l r : FieldExpression) (env : Env) (cs : CS),
       enforce_sub ctx l r (eraseEnv env) cs = eraseResV (enforce_sub ctx l r env cs))
  ∧ (∀ (l r : FieldExpression) (env : Env) (cs : CS),
       enforce_add ctx l r (eraseEnv env) cs = eraseResV (enforce_add ctx l r env cs))
  ∧ (∀ (l r : BooleanExpression) (env : Env) (cs : CS),
       enforce_bool_equality ctx l r (eraseEnv env) cs = eraseResV (enforce_bool_equality ctx l r env cs))
  ∧ (∀ (l r : BooleanExpression) (env : Env) (cs : CS),
       enforce_and ctx l r (eraseEnv env) cs = eraseResV (enforce_and ctx l r env cs))
  ∧ (∀ (l r : BooleanExpression) (env : Env) (cs : CS),
       enforce_or ctx l r (eraseEnv env) cs = eraseResV (enforce_or ctx l r env cs))
  ∧ (∀ (e : BooleanExpression) (env : Env) (cs : CS),
       enforce_not ctx e (eraseEnv env) cs = eraseResV (enforce_not ctx e env cs)) := by
  apply get_bool_value.mutual_induct ctx
  all_goals intros
  all_goals try simp_all [get_bool_value, enforce_boolean_expression, enforce_boolean_array,
    enforce_field_equality, get_u32_value, enforce_field_expression, enforce_field_array,
    enforce_pow, enforce_div, enforce_mul, enforce_sub, enforce_add, enforce_bool_equality,
    enforce_and, enforce_or, enforce_not, bool_from_variable_erase, u32_from_variable_erase,
    eraseFn]
  all_goals try (rename_i a hne hrun ih; obtain ⟨v, e2, c2⟩ := a; cases v <;> simp_all [eraseFn])
  all_goals (rename_i a hv1 hv2 hne hrun ih; obtain ⟨v, e2, c2⟩ := a; cases v <;> simp_all [eraseFn])





/-- Erase function bodies in a result carrying only environment and sink. -/
def eraseRes2 : Except GenError (Env × CS) → Except GenError (Env × CS)
  | .ok (env, cs) => .ok (eraseEnv env, cs)
  | .error e => .error e

@[simp] theorem eraseRes2_ok (env : Env) (cs : CS) :
    eraseRes2 (.ok (env, cs)) = .ok (eraseEnv env, cs) := rfl

@[simp] theorem eraseRes2_error (e : GenError) :
    eraseRes2 (.error e) = .error e := rfl

@[simp] theorem eraseFn_structdef_iff (v : ResolvedValue) (sd : Struct) :
    eraseFn v = .StructDefinition sd ↔ v = .StructDefinition sd := by
  cases v <;> simp [eraseFn]

theorem enforce_index_erase (ctx : Context) (e : FieldExpression) (env : Env) (cs : CS) :
    enforce_index ctx e (eraseEnv env) cs = eraseResV (enforce_index ctx e env cs) := by
  unfold enforce_index
  rw [(erase_core ctx).2.2.2.2.2.1 e env cs]
  cases h : enforce_field_expression ctx e env cs with
  | error e1 => simp
  | ok t =>
    obtain ⟨v, e2, c2⟩ := t
    cases v <;> simp [eraseFn]

@[simp] theorem eraseResRV_ok_var (a : ResolvedValue × Env × CS) :
    eraseResRV (.ok a) = .ok (eraseFn a.1, eraseEnv a.2.1, a.2.2) := by
  obtain ⟨v, e2, c2⟩ := a
  rfl

theorem optIndex_erase (ctx : Context) (o : Option FieldExpression) (d : Nat) (env : Env) (cs : CS) :
    (match o with
     | some fe => eraseResV (enforce_index ctx fe env cs)
     | none => Except.ok (d, eraseEnv env, cs))
    = eraseResV (match o with
     | some fe => enforce_index ctx fe env cs
     | none => Except.ok (d, env, cs)) := by
  cases o <;> simp

set_option maxHeartbeats 8000000 in
theorem erase_expr (ctx : Context) :
    (∀ (e : Expression) (env : Env) (cs : CS),
       enforce_expression ctx e (eraseEnv env) cs = eraseResRV (enforce_expression ctx e env cs))
  ∧ (∀ (arr : Expression) (idx : FieldRangeOrExpression) (env : Env) (cs : CS),
       enforce_array_access_expression ctx arr idx (eraseEnv env) cs
         = eraseResRV (enforce_array_access_expression ctx arr idx env cs))
  ∧ (∀ (v : Variable) (members : List StructMember) (env : Env) (cs : CS),
       enforce_struct_expression ctx v members (eraseEnv env) cs
         = eraseResRV (enforce_struct_expression ctx v members env cs))
  ∧ (∀ (fields : List StructField) (members : List StructMember) (env : Env) (cs : CS),
       enforce_struct_members ctx fields members (eraseEnv env) cs
         = eraseRes2 (enforce_struct_members ctx fields members env cs)) := by
  apply enforce_expression.mutual_induct ctx
  all_goals intros
  all_goals try simp_all [enforce_expression, enforce_array_access_expression,
    enforce_struct_expression, enforce_struct_members, envLookup_eraseEnv,
    bool_from_variable_erase, u32_from_variable_erase, enforce_index_erase,
    optIndex_erase, eraseFn, erase_core ctx]
  all_goals try (rename_i a hne1 hne2 hrun ih; obtain ⟨v, e2, c2⟩ := a; cases v <;> simp_all [eraseFn])
  all_goals try (rename_i val hne hlook; cases val <;> simp_all [eraseFn])
  all_goals (split <;> simp_all [eraseFn])


theorem renderResolvedValue_erase (v : ResolvedValue) :
    renderResolvedValue (eraseFn v) = renderResolvedValue v := by
  cases v <;> rfl

theorem filter_map_erase (t : Env) (x : Variable) :
    (t.filter (fun p => !decide (p.1 = x))).map (fun pr => (pr.1, eraseFn pr.2))
    = (t.map (fun pr => (pr.1, eraseFn pr.2))).filter (fun p => !decide (p.1 = x)) := by
  induction t with
  | nil => rfl
  | cons a t ih =>
    rw [List.filter_cons, List.map_cons, List.filter_cons]
    by_cases h : a.1 = x <;> simp [h, ih]

theorem envInsert_erase (env : Env) (x : Variable) (v : ResolvedValue) :
    eraseEnv (envInsert env x v) = envInsert (eraseEnv env) x (eraseFn v) := by
  unfold eraseEnv envInsert
  simp only [ne_eq, decide_not, List.map_cons]
  rw [filter_map_erase]

theorem enforce_return_expressions_erase (ctx : Context) :
    ∀ (es : List Expression) (env : Env) (cs : CS),
      enforce_return_expressions ctx es (eraseEnv env) cs
        = eraseRes2 (enforce_return_expressions ctx es env cs) := by
  intro es
  induction es with
  | nil => intro env cs; rfl
  | cons e1 rest ih =>
    intro env cs
    cases e1 with
    | Boolean be =>
      rw [enforce_return_expressions, enforce_return_expressions]
      rw [(erase_core ctx).2.1 be env cs]
      cases h : enforce_boolean_expression ctx be env cs with
      | error e => simp
      | ok t =>
        obtain ⟨v, e2, c2⟩ := t
        simp only [eraseResRV_ok, renderResolvedValue_erase]
        cases renderResolvedValue v <;> simp [ih]
    | FieldElement fe =>
      rw [enforce_return_expressions, enforce_return_expressions]
      rw [(erase_core ctx).2.2.2.2.2.1 fe env cs]
      cases h : enforce_field_expression ctx fe env cs with
      | error e => simp
      | ok t =>
        obtain ⟨v, e2, c2⟩ := t
        simp only [eraseResRV_ok, renderResolvedValue_erase]
        cases renderResolvedValue v <;> simp [ih]
    | Variable v =>
      rw [enforce_return_expressions, enforce_return_expressions]
      rw [envLookup_eraseEnv]
      cases h : envLookup env v with
      | none => simp
      | some val =>
        simp only [Option.map, renderResolvedValue_erase]
        cases renderResolvedValue val <;> simp [ih]
    | Struct name members => rfl
    | ArrayAccess arr idx => rfl

theorem enforce_statement_erase (ctx : Context) (s : Statement) (env : Env) (cs : CS) :
    enforce_statement ctx s (eraseEnv env) cs = eraseRes2 (enforce_statement ctx s env cs) := by
  cases s with
  | Definition v e =>
    rw [enforce_statement, enforce_statement]
    rw [(erase_expr ctx).1 e env cs]
    cases h : enforce_expression ctx e env cs with
    | error e1 => simp
    | ok t =>
      obtain ⟨rv, e2, c2⟩ := t
      simp only [eraseResRV_ok, renderResolvedValue_erase]
      cases renderResolvedValue rv <;> simp [envInsert_erase]
  | Return es => exact enforce_return_expressions_erase ctx es env cs

theorem enforce_statements_erase (ctx : Context) :
    ∀ (ss : List Statement) (env : Env) (cs : CS),
      enforce_statements ctx ss (eraseEnv env) cs
        = eraseRes2 (enforce_statements ctx ss env cs) := by
  intro ss
  induction ss with
  | nil => intro env cs; rfl
  | cons s rest ih =>
    intro env cs
    rw [enforce_statements, enforce_statements, enforce_statement_erase]
    cases h : enforce_statement ctx s env cs with
    | error e => simp
    | ok t =>
      obtain ⟨e2, c2⟩ := t
      simp [ih]

/-- Replace every declared function body by the empty statement list. -/
def stripBodies (p : Program) : Program :=
  ⟨p.structs, p.functions.map (fun pr => (pr.1, ⟨[]⟩)), p.statements⟩

theorem seedEnv_stripBodies (p : Program) :
    seedEnv (stripBodies p) = eraseEnv (seedEnv p) := by
  have hbase : ∀ (l : List (Variable × Function)) (env : Env),
      l.foldl (fun env pr => envInsert env pr.1 (.Function ⟨[]⟩)) (eraseEnv env)
        = eraseEnv (l.foldl (fun env pr => envInsert env pr.1 (.Function pr.2)) env) := by
    intro l
    induction l with
    | nil => intro env; rfl
    | cons a t ih =>
      intro env
      rw [List.foldl_cons, List.foldl_cons, ← ih, envInsert_erase]
      rfl
  have hstructs : ∀ (l : List (Variable × Struct)) (env : Env),
      eraseEnv (l.foldl (fun env pr => envInsert env pr.1 (.StructDefinition pr.2)) env)
        = l.foldl (fun env pr => envInsert env pr.1 (.StructDefinition pr.2)) (eraseEnv env) := by
    intro l
    induction l with
    | nil => intro env; rfl
    | cons a t ih =>
      intro env
      rw [List.foldl_cons, List.foldl_cons, ih, envInsert_erase]
      rfl
  have hmap : ∀ (init : Env),
      ((p.functions.map (fun pr => (pr.1, (⟨[]⟩ : Function)))).foldl
        (fun env pr => envInsert env pr.1 (.Function pr.2)) init)
        = p.functions.foldl (fun env pr => envInsert env pr.1 (.Function ⟨[]⟩)) init := by
    intro init
    rw [List.foldl_map]
  show ((p.functions.map (fun pr => (pr.1, (⟨[]⟩ : Function)))).foldl
        (fun env pr => envInsert env pr.1 (.Function pr.2))
        (p.structs.foldl (fun env pr => envInsert env pr.1 (.StructDefinition pr.2)) []))
      = eraseEnv (seedEnv p)
  rw [hmap]
  unfold seedEnv
  rw [← hbase, hstructs]
  rfl

theorem generate_constraints_erase (ctx : Context) (p : Program) (cs : CS) :
    generate_constraints ctx (stripBodies p) cs = eraseRes2 (generate_constraints ctx p cs) := by
  unfold generate_constraints
  have hs : (stripBodies p).statements = p.statements := rfl
  rw [hs, seedEnv_stripBodies, enforce_statements_erase]

/-- C7 -/
theorem generate_constraints_driver :
    (∀ (p : Program) (n : Variable),
       envLookup (seedEnv p) n =
         match (declSeeds p).reverse.find? (fun pr => pr.1 = n) with
         | some pr => some pr.2
         | none => none)
  ∧ (∀ (ctx : Context) (p : Program) (cs : CS),
       generate_constraints ctx p cs = enforce_statements ctx p.statements (seedEnv p) cs)
  ∧ (∀ (ctx : Context) (s : Statement) (rest : List Statement) (env : Env) (cs : CS),
       enforce_statements ctx (s :: rest) env cs =
         match enforce_statement ctx s env cs with
         | .error e => .error e
         | .ok (env1, cs1) => enforce_statements ctx rest env1 cs1)
  ∧ (∀ (ctx : Context) (p : Program) (cs : CS),
       generate_constraints ctx (stripBodies p) cs = eraseRes2 (generate_constraints ctx p cs)) := by
  refine ⟨envLookup_seedEnv, fun ctx p cs => rfl, fun ctx s rest env cs => ?_, generate_constraints_erase⟩
  rw [enforce_statements]

end Leo
